import Mathlib

/-!
Verification of hacomponent: Home Assistant MQTT entities

A shallow embedding of `src/hacomponent.h` and `src/hacomponent.cpp`, and the
properties of the entity registry and topic/state protocol proved over it.

Conventions of the embedding

* A C string (`const char*`) and an Arduino `String` are a Lean `String` whose
  characters each stand for one byte (`char`); `String.length` is therefore the
  byte length (`strlen`).  Pointers that the code dereferences are taken to be
  non-null.
* Everything the library does to the outside (the `PubSubClient` transport, the
  `Debug` stream, the application callback of a switch) is recorded, in order,
  in the `events` of a `World`.
* The integer widths are those of the ESP8266/ESP32 Arduino ABI the library is
  written for (`std::function`, `std::vector`): `int` and `long` are 32-bit
  two's complement and wrap on overflow, `float` is IEEE-754 binary32 with
  round-to-nearest, ties-to-even.  The operations of `F32` return values in
  canonical form (24-bit significand, exponent of the last place between `-149`
  and `104`).
* The callback of a switch is an opaque handle: invoking it is observed, and it
  is taken not to call back into the library.
* A `JsonObject` holds its members without bound; the capacity of the
  `StaticJsonBuffer` and of the transport's packet buffer are not part of the
  model (a rejected publish is an answer of `World.accept`).
-/

namespace HA

/-! ## Strings and the fixed-size topic buffer -/

/-- The macro `TOPIC_BUFFER_SIZE` of `hacomponent.h`. -/
def TOPIC_BUFFER_SIZE : Nat := 80

/-- The call `snprintf(buf, size, fmt, ...)` followed by reading `buf` back as a
C string: `formatted` is the full expansion of the format, of which at most
`size - 1` bytes are stored before the terminating NUL. -/
def snprintf (size : Nat) (formatted : String) : String :=
  ⟨formatted.data.take (size - 1)⟩

/-- Modelled from the spec: Arduino `String::equalsIgnoreCase` (core library, not
under `src/`): equality of two strings up to ASCII letter case. -/
def equalsIgnoreCase (a b : String) : Bool :=
  a.data.map Char.toLower == b.data.map Char.toLower

/-! ## Data model -/

/-- The instantiated values of `enum class Component`.  `Component::Undefined`
has `m_component == nullptr` and no instantiation of `HACompBase`. -/
inductive Component
  | Sensor
  | BinarySensor
  | Switch
deriving DecidableEq, Repr

/-- The static member `HACompBase<c>::m_component`. -/
def m_component : Component → String
  | .Sensor => "sensor"
  | .BinarySensor => "binary_sensor"
  | .Switch => "switch"

/-- The sensor classes named by `HAComponent<Component::Sensor>::getConfigInfo`. -/
inductive SensorClass
  | Undefined
  | Battery
  | Humidity
  | Illuminance
  | Temperature
  | Pressure
  | Power
  | Energy
  | Voltage
  | Dust
  | PPM
  | PPB
deriving DecidableEq, Repr

/-- The device identity of `class ComponentContext` (the `client` reference is
the `World`). -/
structure ComponentContext where
  mac_address : String
  device_name : String
  friendly_name : String
  fw_version : String
  model : String
  manufacturer : String
deriving DecidableEq, Repr

/-- A value stored in a `JsonObject`: a string, a boolean, or the nested object
of string members built by `getDeviceInfo`. -/
inductive JsonValue
  | str (s : String)
  | bool (b : Bool)
  | object (members : List (String × String))
deriving DecidableEq, Repr

/-- An ArduinoJson `JsonObject`: its members in insertion order. -/
abbrev JsonObject := List (String × JsonValue)

/-- The assignment `json[key] = value`: replaces the member when the key is
present, appends it otherwise. -/
def JsonObject.set (json : JsonObject) (key : String) (value : JsonValue) : JsonObject :=
  if json.any (fun p => p.1 == key) then
    json.map (fun p => if p.1 == key then (key, value) else p)
  else
    json ++ [(key, value)]

/-- Looks a member up, as `json[key]` read back. -/
def JsonObject.get? (json : JsonObject) (key : String) : Option JsonValue :=
  (json.find? (fun p => p.1 == key)).map Prod.snd

/-- IEEE-754 binary32 values: `finite neg m e` is `(-1)^neg * m * 2^e`. -/
inductive F32
  | finite (neg : Bool) (m : Nat) (e : Int)
  | inf (neg : Bool)
  | nan
deriving DecidableEq, Repr

/-- What is handed to `PubSubClient::publish` as payload. -/
inductive Payload
  /-- A NUL-terminated text, `publish(topic, text, retained)`. -/
  | text (s : String)
  /-- The explicit empty payload, `publish(topic, nullptr, 0, retained)`. -/
  | empty
  /-- The serialisation `json.printTo(payload)` of a document. -/
  | json (doc : JsonObject)
  /-- The decimal text `String(value)` of a float. -/
  | decimal (value : F32)
deriving DecidableEq, Repr

/-- The calls the library makes on its collaborators. -/
inductive Event
  /-- A call of `context.client.publish`. -/
  | publish (topic : String) (payload : Payload) (retained : Bool)
  /-- A call of `context.client.subscribe`. -/
  | subscribe (topic : String)
  /-- A call `client.connect(id, user, password, ...)` with its optional
  last-will arguments `(willTopic, willQos, willRetain, willMessage)`. -/
  | connect (id user password : String) (will : Option (String × Nat × Bool × String))
  /-- A call `m_callback(state)` of the `std::function` with the given handle. -/
  | callback (handle : Nat) (state : Bool)
  /-- A call `Debug.print(text)`. -/
  | print (text : String)
  /-- A call `Debug.println(text)`. -/
  | println (text : String)
deriving DecidableEq, Repr

/-- The collaborators of the library: the calls received so far, oldest first,
and the answer (`true` = accepted) the transport gives to a `publish` or
`connect` call made after a given number of calls. -/
structure World where
  events : List Event
  accept : Nat → Bool

/-- Records one call. -/
def World.emit (w : World) (e : Event) : World :=
  { w with events := w.events ++ [e] }

/-- The 3-argument `PubSubClient::publish(topic, payload, retained)` and the
4-argument overload, told apart by the `Payload`; returns the transport's
answer. -/
def World.publish (w : World) (topic : String) (payload : Payload) (retained : Bool) :
    Bool × World :=
  (w.accept w.events.length, w.emit (.publish topic payload retained))

/-- The call `PubSubClient::subscribe(topic)`, whose result the library ignores. -/
def World.subscribe (w : World) (topic : String) : World :=
  w.emit (.subscribe topic)

/-- The publish calls of a trace, as `(topic, payload, retained)`. -/
def publishes : List Event → List (String × Payload × Bool)
  | [] => []
  | .publish t p r :: es => (t, p, r) :: publishes es
  | _ :: es => publishes es

/-- The arguments of the callback invocations of a trace. -/
def callbacks : List Event → List (Nat × Bool)
  | [] => []
  | .callback h b :: es => (h, b) :: callbacks es
  | _ :: es => callbacks es

/-- The members of `HACompBase<c>`; `m_device_class` is never read. -/
structure HACompBase where
  context : ComponentContext
  m_name : String
  m_id : String
  m_icon : Option String
  m_state_topic : String
deriving DecidableEq, Repr

/-- The constructor `HACompBase(context, id, name)` followed by the assignment
`m_icon = icon` of the derived constructors: the state topic starts empty. -/
def HACompBase.new (context : ComponentContext) (id name : String)
    (icon : Option String) : HACompBase :=
  { context := context, m_name := name, m_id := id, m_icon := icon, m_state_topic := "" }

/-! ## Generic entity operations -/

/-- The generic `HACompBase<c>::initialize()`. -/
def HACompBase.initialize (c : Component) (self : HACompBase) : HACompBase :=
  let state_topic := snprintf TOPIC_BUFFER_SIZE
    (self.context.device_name ++ "/" ++ m_component c ++ "/" ++ self.m_id ++ "/state")
  { self with m_state_topic := state_topic }

/-- The static function `getDeviceInfo(json, context)`. -/
def getDeviceInfo (json : JsonObject) (context : ComponentContext) : JsonObject :=
  json.set "device" (.object
    [("identifiers", context.mac_address),
     ("name", context.friendly_name),
     ("sw_version", context.fw_version),
     ("model", context.model),
     ("manufacturer", context.manufacturer)])

/-- The base `HACompBase<c>::getConfigInfo`, which adds nothing. -/
def HACompBase.getConfigInfo (json : JsonObject) (w : World) : JsonObject × World :=
  (json, w)

/-- The method `HACompBase<c>::publishState(value, retain)`. -/
def HACompBase.publishState (self : HACompBase) (value : Payload) (retain : Bool)
    (w : World) : World :=
  (w.publish self.m_state_topic value retain).2

/-- The method `HACompBase<c>::clearState()`. -/
def HACompBase.clearState (self : HACompBase) (w : World) : World :=
  (w.publish self.m_state_topic .empty true).2

/-- The discovery topic formatted at the head of `publishConfig`. -/
def HACompBase.configTopic (c : Component) (self : HACompBase) : String :=
  snprintf TOPIC_BUFFER_SIZE
    ("homeassistant/" ++ m_component c ++ "/" ++ self.context.device_name ++ "/"
      ++ self.m_id ++ "/config")

/-- The configuration document built by `publishConfig(true)`, and the world
after the virtual `getConfigInfo` has run. -/
def HACompBase.configDocument (self : HACompBase)
    (getConfigInfo : JsonObject → World → JsonObject × World) (w : World) :
    JsonObject × World :=
  let json : JsonObject := []
  let json := json.set "name" (.str self.m_name)
  let json := json.set "stat_t" (.str self.m_state_topic)
  let (json, w) := getConfigInfo json w
  let uid := snprintf TOPIC_BUFFER_SIZE (self.context.device_name ++ "_" ++ self.m_id)
  let json := json.set "unique_id" (.str uid)
  let json := json.set "object_id" (.str uid)
  let json := match self.m_icon with
    | some icon => json.set "icon" (.str icon)
    | none => json
  (getDeviceInfo json self.context, w)

/-- The generic `HACompBase<c>::publishConfig(present)`; `getConfigInfo` is the
override of the virtual method for the entity's dynamic type. -/
def HACompBase.publishConfig (c : Component) (self : HACompBase)
    (getConfigInfo : JsonObject → World → JsonObject × World) (present : Bool)
    (w : World) : World :=
  let topic := HACompBase.configTopic c self
  if present then
    let (json, w) := self.configDocument getConfigInfo w
    let w := w.emit (.print "publish: ")
    let w := w.emit (.print topic)
    let w := w.emit (.println "")
    let (ok, w) := w.publish topic (.json json) true
    if !ok then w.emit (.println "ERROR PUBLISHING TOPIC") else w
  else
    let w := w.emit (.print "unpublish: ")
    let w := w.emit (.println topic)
    let w := (w.publish topic .empty true).2
    let topic := snprintf TOPIC_BUFFER_SIZE
      ("homeassistant/" ++ m_component c ++ "/" ++ self.context.device_name ++ "/"
        ++ self.m_id)
    let w := (w.publish topic .empty true).2
    self.clearState w

/-! ## Switch -/

/-- The members that `HAComponent<Component::Switch>` adds to its base;
`m_callback` is a handle naming the application's `std::function`, whose
invocation is recorded as an event. -/
structure HAComponent.Switch extends HACompBase where
  m_state : Bool
  m_cmd_topic : String
  m_callback : Nat
deriving DecidableEq, Repr

/-- The static member `HAComponent<Component::Switch>::ON`. -/
def HAComponent.Switch.ON : String := "ON"

/-- The static member `HAComponent<Component::Switch>::OFF`. -/
def HAComponent.Switch.OFF : String := "OFF"

/-- The constructor of `HAComponent<Component::Switch>`. -/
def HAComponent.Switch.new (context : ComponentContext) (id name : String)
    (callback : Nat) (icon : Option String) : HAComponent.Switch :=
  { toHACompBase := HACompBase.new context id name icon,
    m_state := false, m_cmd_topic := "", m_callback := callback }

/-- The override `HAComponent<Component::Switch>::initialize()`. -/
def HAComponent.Switch.initialize (self : HAComponent.Switch) : HAComponent.Switch :=
  let base := HACompBase.initialize .Switch self.toHACompBase
  let cmd_topic := snprintf TOPIC_BUFFER_SIZE
    (self.context.device_name ++ "/" ++ m_component .Switch ++ "/" ++ self.m_id ++ "/ctrl")
  { self with toHACompBase := base, m_cmd_topic := cmd_topic }

/-- The method `HAComponent<Component::Switch>::reportState()`. -/
def HAComponent.Switch.reportState (self : HAComponent.Switch) (w : World) : World :=
  (w.publish self.m_state_topic
    (.text (if self.m_state then HAComponent.Switch.ON else HAComponent.Switch.OFF)) true).2

/-- The method `HAComponent<Component::Switch>::setState(state)`. -/
def HAComponent.Switch.setState (self : HAComponent.Switch) (state : Bool) (w : World) :
    HAComponent.Switch × World :=
  let self := { self with m_state := state }
  let w := w.emit (.callback self.m_callback state)
  (self, self.reportState w)

/-- The override `HAComponent<Component::Switch>::getConfigInfo(json)`. -/
def HAComponent.Switch.getConfigInfo (self : HAComponent.Switch) (json : JsonObject)
    (w : World) : JsonObject × World :=
  let json := json.set "cmd_t" (.str self.m_cmd_topic)
  let w := w.subscribe self.m_cmd_topic
  (json, self.reportState w)

/-- The body run by `processMqttTopic` for the switch whose command topic
matched: decode the payload and apply it. -/
def HAComponent.Switch.applyCommand (sw : HAComponent.Switch) (value : String) (w : World) :
    HAComponent.Switch × World :=
  if equalsIgnoreCase value HAComponent.Switch.ON then
    sw.setState true w
  else if equalsIgnoreCase value HAComponent.Switch.OFF then
    sw.setState false w
  else
    let w := w.emit (.print "Invalid payload received for switch: ")
    (sw, w.emit (.println value))

/-- The static `HAComponent<Component::Switch>::processMqttTopic(topic, value)`
over the switch index `m_switches`: the loop stops at the first switch whose
command topic equals the topic. -/
def HAComponent.Switch.processMqttTopic :
    List HAComponent.Switch → String → String → World → List HAComponent.Switch × World
  | [], _, _, w => ([], w)
  | sw :: rest, topic, value, w =>
    if sw.m_cmd_topic = topic then
      let (sw, w) := sw.applyCommand value w
      (sw :: rest, w)
    else
      let (rest, w) := HAComponent.Switch.processMqttTopic rest topic value w
      (sw :: rest, w)

/-- The callback `HAComponentManager::onMessageReceived(topic, payload, length)`:
`payload` holds the `length` bytes received; after `payload[length] = 0` it is
read as a C string, which ends at its first NUL byte. -/
def HAComponentManager.onMessageReceived (m_switches : List HAComponent.Switch)
    (topic : String) (payload : String) (w : World) : List HAComponent.Switch × World :=
  let topic_s := topic
  let payload_s : String := ⟨payload.data.takeWhile (fun ch => ch != Char.ofNat 0)⟩
  HAComponent.Switch.processMqttTopic m_switches topic_s payload_s w

/-! ## Machine arithmetic -/

/-- The value of a 32-bit two's complement `int` or `long` holding `x`. -/
def toInt32 (x : Int) : Int :=
  (x + 2 ^ 31) % 2 ^ 32 - 2 ^ 31

/-- The position of the leading bit of `n`, found by halving (`0` for `n < 2`). -/
def F32.log2Aux : Nat → Nat → Nat
  | 0, _ => 0
  | fuel + 1, n => if n < 2 then 0 else F32.log2Aux fuel (n / 2) + 1

/-- The integer part of the binary logarithm of `n`. -/
def F32.log2 (n : Nat) : Nat :=
  F32.log2Aux n n

/-- The binary32 nearest to `(-1)^neg * (n / d) * 2^e` under round-to-nearest,
ties-to-even (`d > 0`): 24 bits of significand, exponents of the last place from
`-149` (subnormal) to `104`, overflow to infinity. -/
def F32.round (neg : Bool) (n d : Nat) (e : Int) : F32 :=
  if n = 0 then .finite neg 0 (-149) else
  let l : Int := (F32.log2 n : Int) - (F32.log2 d : Int)
  let ge : Bool := if 0 ≤ l then decide (d * 2 ^ l.toNat ≤ n) else decide (d ≤ n * 2 ^ (-l).toNat)
  let L : Int := if ge then l else l - 1
  let E : Int := max (L + e - 23) (-149)
  let k : Int := e - E
  let N : Nat := if 0 ≤ k then n * 2 ^ k.toNat else n
  let D : Nat := if 0 ≤ k then d else d * 2 ^ (-k).toNat
  let q : Nat := N / D
  let r : Nat := N % D
  let q : Nat := if D < 2 * r ∨ (2 * r = D ∧ q % 2 = 1) then q + 1 else q
  let E : Int := if q = 2 ^ 24 then E + 1 else E
  let q : Nat := if q = 2 ^ 24 then 2 ^ 23 else q
  if 104 < E then .inf neg else .finite neg q E

/-- The integer `(-1)^neg * m`. -/
def F32.signed (neg : Bool) (m : Nat) : Int :=
  if neg then -(m : Int) else (m : Int)

/-- The constant `0.f`. -/
def F32.zero : F32 := .finite false 0 (-149)

/-- The predicate `std::isfinite`. -/
def F32.isFinite : F32 → Bool
  | .finite _ _ _ => true
  | _ => false

/-- Unary minus. -/
def F32.neg : F32 → F32
  | .finite s m e => .finite (!s) m e
  | .inf s => .inf (!s)
  | .nan => .nan

/-- The sum `a + b` in binary32. -/
def F32.add : F32 → F32 → F32
  | .nan, _ => .nan
  | _, .nan => .nan
  | .inf a, .inf b => if a = b then .inf a else .nan
  | .inf a, .finite _ _ _ => .inf a
  | .finite _ _ _, .inf b => .inf b
  | .finite s1 m1 e1, .finite s2 m2 e2 =>
    let e := min e1 e2
    let v : Int := F32.signed s1 (m1 * 2 ^ (e1 - e).toNat)
      + F32.signed s2 (m2 * 2 ^ (e2 - e).toNat)
    if v = 0 then .finite (s1 && s2) 0 (-149)
    else F32.round (decide (v < 0)) v.natAbs 1 e

/-- The difference `a - b` in binary32. -/
def F32.sub (a b : F32) : F32 :=
  F32.add a (F32.neg b)

/-- The quotient `a / b` in binary32. -/
def F32.div : F32 → F32 → F32
  | .nan, _ => .nan
  | _, .nan => .nan
  | .inf _, .inf _ => .nan
  | .inf a, .finite b _ _ => .inf (a != b)
  | .finite a _ _, .inf b => .finite (a != b) 0 (-149)
  | .finite a m1 e1, .finite b m2 e2 =>
    if m2 = 0 then (if m1 = 0 then .nan else .inf (a != b))
    else F32.round (a != b) m1 m2 (e1 - e2)

/-- The conversion `(float)i` of an integer. -/
def F32.ofInt (i : Int) : F32 :=
  F32.round (decide (i < 0)) i.natAbs 1 0

/-- The comparison `a <= b`, false when either side is NaN. -/
def F32.le : F32 → F32 → Bool
  | .nan, _ => false
  | _, .nan => false
  | .inf a, .inf b => a || !b
  | .inf a, .finite _ _ _ => a
  | .finite _ _ _, .inf b => !b
  | .finite s1 m1 e1, .finite s2 m2 e2 =>
    let e := min e1 e2
    decide (F32.signed s1 (m1 * 2 ^ (e1 - e).toNat) ≤ F32.signed s2 (m2 * 2 ^ (e2 - e).toNat))

/-- The comparison `a >= b`, false when either side is NaN. -/
def F32.ge (a b : F32) : Bool :=
  F32.le b a

/-- The comparison `a == b`: false when either side is NaN, and `-0 == +0`. -/
def F32.eq : F32 → F32 → Bool
  | .nan, _ => false
  | _, .nan => false
  | .inf a, .inf b => a == b
  | .inf _, .finite _ _ _ => false
  | .finite _ _ _, .inf _ => false
  | .finite s1 m1 e1, .finite s2 m2 e2 =>
    let e := min e1 e2
    decide (F32.signed s1 (m1 * 2 ^ (e1 - e).toNat) = F32.signed s2 (m2 * 2 ^ (e2 - e).toNat))

/-- The binary32 nearest to the decimal `n / d` (a literal such as `10.3f`). -/
def F32.ofRatio (n d : Nat) : F32 :=
  F32.round false n d 0

/-- The largest finite binary32, `FLT_MAX = (2^24 - 1) * 2^104`. -/
def F32.max : F32 := .finite false (2 ^ 24 - 1) 104

/-! ## Numeric sensor -/

/-- The members that `HAComponent<Component::Sensor>` adds to its base. -/
structure HAComponent.Sensor extends HACompBase where
  m_sensor_class : SensorClass
  m_hysteresis : F32
  m_last_value : F32
  m_sum : F32
  m_samples : Int
  m_last_ts : Int
  m_sample_interval : Int
deriving DecidableEq, Repr

/-- The constructor of `HAComponent<Component::Sensor>`.  It does not initialize
`m_last_value`, whose indeterminate content is the argument `last_value`. -/
def HAComponent.Sensor.new (context : ComponentContext) (id name : String)
    (sample_interval_ms : Int) (hysteresis : F32) (sclass : SensorClass)
    (icon : Option String) (last_value : F32) : HAComponent.Sensor :=
  { toHACompBase := HACompBase.new context id name icon,
    m_sensor_class := sclass, m_hysteresis := hysteresis, m_last_value := last_value,
    m_sum := F32.zero, m_samples := 0, m_last_ts := 0,
    m_sample_interval := sample_interval_ms }

/-- The value `ts - m_last_ts` that `update` compares with the window length,
for `long ts = millis()`. -/
def HAComponent.Sensor.elapsed (self : HAComponent.Sensor) (millis : Nat) : Int :=
  toInt32 (toInt32 millis - self.m_last_ts)

/-- The local `avg_value` of `update(value)`: the mean over the window once
`value` has been accumulated. -/
def HAComponent.Sensor.avg_value (self : HAComponent.Sensor) (value : F32) : F32 :=
  let m_samples := toInt32 (self.m_samples + 1)
  let m_sum := F32.add self.m_sum value
  if 0 < m_samples then F32.div m_sum (F32.ofInt m_samples) else m_sum

/-- The test of `update` that guards the publication of `avg_value`. -/
def HAComponent.Sensor.significant (self : HAComponent.Sensor) (avg_value : F32) : Bool :=
  avg_value.isFinite &&
    (F32.eq self.m_hysteresis F32.zero ||
      (F32.le avg_value (F32.sub self.m_last_value self.m_hysteresis) ||
        F32.ge avg_value (F32.add self.m_last_value self.m_hysteresis)))

/-- The method `HAComponent<Component::Sensor>::update(value)`, called when
`millis()` returns `millis`. -/
def HAComponent.Sensor.update (self : HAComponent.Sensor) (value : F32) (millis : Nat)
    (w : World) : HAComponent.Sensor × World :=
  if !value.isFinite then (self, w) else
  let m_samples := toInt32 (self.m_samples + 1)
  let m_sum := F32.add self.m_sum value
  let ts := toInt32 millis
  if self.m_sample_interval < self.elapsed millis then
    let avg_value := self.avg_value value
    let closed := { self with m_last_ts := ts, m_samples := 0, m_sum := F32.zero }
    if self.significant avg_value then
      ({ closed with m_last_value := avg_value },
        closed.publishState (.decimal avg_value) true w)
    else
      (closed, w)
  else
    ({ self with m_samples := m_samples, m_sum := m_sum }, w)

/-- The method `HAComponent<Component::Sensor>::getCurrent()`. -/
def HAComponent.Sensor.getCurrent (self : HAComponent.Sensor) : F32 :=
  self.m_last_value

/-- A run of `update` calls, each on a value at a clock time, oldest first. -/
def HAComponent.Sensor.feed :
    HAComponent.Sensor → List (F32 × Nat) → World → HAComponent.Sensor × World
  | self, [], w => (self, w)
  | self, (value, millis) :: rest, w =>
    HAComponent.Sensor.feed (self.update value millis w).1 rest (self.update value millis w).2

/-- The finite values among the inputs of a run, in order: those that `update`
accumulates. -/
def finiteValues (inputs : List (F32 × Nat)) : List F32 :=
  (inputs.map Prod.fst).filter F32.isFinite

/-! ## Numeric sensor, binary sensor and availability: configuration -/

/-- The static member `SensorClassString<c>::name`, `none` for `nullptr`. -/
def SensorClassString : SensorClass → Option String
  | .Temperature => some "temperature"
  | .Humidity => some "humidity"
  | .Battery => some "battery"
  | .Illuminance => some "illuminance"
  | .Pressure => some "pressure"
  | .Power => some "power"
  | .Energy => some "energy"
  | .Voltage => some "voltage"
  | _ => none

/-- The pair `(device_class, units)` chosen by the `switch (m_sensor_class)` of
`HAComponent<Component::Sensor>::getConfigInfo`. -/
def HAComponent.Sensor.classInfo : SensorClass → Option String × String
  | .Temperature => (SensorClassString .Temperature, "°C")
  | .Humidity => (SensorClassString .Humidity, "%")
  | .Battery => (SensorClassString .Battery, "%")
  | .Illuminance => (SensorClassString .Illuminance, "lx")
  | .Pressure => (SensorClassString .Pressure, "mbar")
  | .Power => (SensorClassString .Power, "W")
  | .Energy => (SensorClassString .Energy, "Wh")
  | .Voltage => (SensorClassString .Voltage, "V")
  | .Dust => (none, "ug/m³")
  | .PPM => (none, "ppm")
  | .PPB => (none, "ppb")
  | .Undefined => (none, "")

/-- The override `HAComponent<Component::Sensor>::getConfigInfo(json)`. -/
def HAComponent.Sensor.getConfigInfo (self : HAComponent.Sensor) (json : JsonObject)
    (w : World) : JsonObject × World :=
  let json := json.set "frc_upd" (.bool true)
  let (device_class, units) := HAComponent.Sensor.classInfo self.m_sensor_class
  let json := json.set "unit_of_meas" (.str units)
  let json := match device_class with
    | some name => json.set "dev_cla" (.str name)
    | none => json
  (json, w)

/-- The values of `enum class BinarySensorClass`. -/
inductive BinarySensorClass
  | battery | cold | connectivity | door | garage_door | gas | heat | light | lock
  | moisture | motion | moving | occupancy | opening | plug | power | presence
  | problem | safety | smoke | sound | vibration | window | Undefined
deriving DecidableEq, Repr

/-- The members that `HAComponent<Component::BinarySensor>` adds to its base. -/
structure HAComponent.BinarySensor extends HACompBase where
  m_sensor_class : BinarySensorClass
deriving DecidableEq, Repr

/-- The constructor of `HAComponent<Component::BinarySensor>`. -/
def HAComponent.BinarySensor.new (context : ComponentContext) (id name : String)
    (sensor_class : BinarySensorClass) (icon : Option String) : HAComponent.BinarySensor :=
  { toHACompBase := HACompBase.new context id name icon, m_sensor_class := sensor_class }

/-- The override `HAComponent<Component::BinarySensor>::getConfigInfo(json)`: its
`switch` has no case, so `device_class` stays `nullptr` and nothing is added. -/
def HAComponent.BinarySensor.getConfigInfo (_self : HAComponent.BinarySensor)
    (json : JsonObject) (w : World) : JsonObject × World :=
  let device_class : Option String := none
  let json := match device_class with
    | some name => json.set "dev_cla" (.str name)
    | none => json
  (json, w)

/-- The method `HAComponent<Component::BinarySensor>::reportState(state)`. -/
def HAComponent.BinarySensor.reportState (self : HAComponent.BinarySensor) (state : Bool)
    (w : World) : World :=
  self.toHACompBase.publishState (.text (if state then "ON" else "OFF")) true w

/-- The class `HAAvailabilityComponent`, a `HACompBase<Component::BinarySensor>`
with no further member. -/
structure HAAvailabilityComponent extends HACompBase where
deriving DecidableEq, Repr

/-- The static member `HAAvailabilityComponent::ONLINE`. -/
def HAAvailabilityComponent.ONLINE : String := "online"

/-- The static member `HAAvailabilityComponent::OFFLINE`. -/
def HAAvailabilityComponent.OFFLINE : String := "offline"

/-- The constructor `HAAvailabilityComponent(context)`.  It does not assign
`m_icon`, whose content is the argument `icon`. -/
def HAAvailabilityComponent.new (context : ComponentContext) (icon : Option String) :
    HAAvailabilityComponent :=
  { toHACompBase := HACompBase.new context "status" "Status" icon }

/-- The override `HAAvailabilityComponent::initialize()`. -/
def HAAvailabilityComponent.initialize (self : HAAvailabilityComponent) :
    HAAvailabilityComponent :=
  let state_topic := snprintf TOPIC_BUFFER_SIZE
    (self.context.device_name ++ "/" ++ self.m_id)
  { self with m_state_topic := state_topic }

/-- The override `HAAvailabilityComponent::getConfigInfo(json)`. -/
def HAAvailabilityComponent.getConfigInfo (_self : HAAvailabilityComponent)
    (json : JsonObject) (w : World) : JsonObject × World :=
  let json := json.set "payload_on" (.str HAAvailabilityComponent.ONLINE)
  let json := json.set "payload_off" (.str HAAvailabilityComponent.OFFLINE)
  let json := json.set "dev_cla" (.str "connectivity")
  (json, w)

/-- The method `HAAvailabilityComponent::getWillTopic()`. -/
def HAAvailabilityComponent.getWillTopic (self : HAAvailabilityComponent) : String :=
  self.m_state_topic

/-- The method `HAAvailabilityComponent::connect()`. -/
def HAAvailabilityComponent.connect (self : HAAvailabilityComponent) (w : World) : World :=
  self.toHACompBase.publishState (.text HAAvailabilityComponent.ONLINE) true w

/-! ## Registry and connection helper -/

/-- An entry of `HACompItem::m_components`: an entity with its dynamic type. -/
inductive Entity
  | sensor (s : HAComponent.Sensor)
  | binarySensor (b : HAComponent.BinarySensor)
  | switch (s : HAComponent.Switch)
  | availability (a : HAAvailabilityComponent)
deriving DecidableEq, Repr

/-- The base-class part of an entity. -/
def Entity.base : Entity → HACompBase
  | .sensor s => s.toHACompBase
  | .binarySensor b => b.toHACompBase
  | .switch s => s.toHACompBase
  | .availability a => a.toHACompBase

/-- The template parameter `c` of the `HACompBase<c>` an entity derives from. -/
def Entity.component : Entity → Component
  | .sensor _ => .Sensor
  | .binarySensor _ => .BinarySensor
  | .switch _ => .Switch
  | .availability _ => .BinarySensor

/-- The virtual call `item->initialize()`. -/
def Entity.initialize : Entity → Entity
  | .sensor s => .sensor { s with toHACompBase := HACompBase.initialize .Sensor s.toHACompBase }
  | .binarySensor b =>
    .binarySensor { b with toHACompBase := HACompBase.initialize .BinarySensor b.toHACompBase }
  | .switch s => .switch ( HAComponent.Switch.initialize s)
  | .availability a => .availability ( HAAvailabilityComponent.initialize a)

/-- The virtual call `getConfigInfo(json)` made by `publishConfig`. -/
def Entity.getConfigInfo : Entity → JsonObject → World → JsonObject × World
  | .sensor s => s.getConfigInfo
  | .binarySensor b => b.getConfigInfo
  | .switch s => s.getConfigInfo
  | .availability a => a.getConfigInfo

/-- The virtual call `item->publishConfig(present)`: every entity inherits the
generic `HACompBase<c>::publishConfig`, which assigns no member. -/
def Entity.publishConfig (e : Entity) (present : Bool) (w : World) : World :=
  HACompBase.publishConfig e.component e.base e.getConfigInfo present w

/-- The configuration document an entity hands to the transport in
`publishConfig(true)`. -/
def Entity.configDocument (e : Entity) (w : World) : JsonObject :=
  (e.base.configDocument e.getConfigInfo w).1

/-- The static `HAComponentManager::initializeAll()` over `m_components`. -/
def HAComponentManager.initializeAll (m_components : List Entity) : List Entity :=
  m_components.map Entity.initialize

/-- The static `HAComponentManager::publishConfigAll(present)` over
`m_components`. -/
def HAComponentManager.publishConfigAll (m_components : List Entity) (present : Bool)
    (w : World) : World :=
  m_components.foldl (fun w item => item.publishConfig present w) w

/-- The call `PubSubClient::connect(id, user, password, ...)` with its optional
last-will arguments; returns the transport's answer. -/
def World.connect (w : World) (id user password : String)
    (will : Option (String × Nat × Bool × String)) : Bool × World :=
  (w.accept w.events.length, w.emit (.connect id user password will))

/-- The static `HAComponentManager::connectClientWithAvailability(client, id,
user, password)`; `inst` is the singleton `HAAvailabilityComponent::inst`. -/
def HAComponentManager.connectClientWithAvailability (inst : Option HAAvailabilityComponent)
    (id user password : String) (w : World) : Bool × World :=
  match inst with
  | some avail =>
    let will_topic := avail.getWillTopic
    let will_msg := HAAvailabilityComponent.OFFLINE
    let will_qos : Nat := 0
    let will_retain := true
    let (connected, w) := w.connect id user password
      (some (will_topic, will_qos, will_retain, will_msg))
    if connected then (connected, avail.connect w) else (connected, w)
  | none => w.connect id user password none

/-! ## Observations on traces -/

/-- The events added to the trace between two worlds. -/
def newEvents (before after : World) : List Event :=
  after.events.drop before.events.length

/-- The calls made on the transport's `publish` and `subscribe`, in order. -/
def transportCalls : List Event → List Event
  | [] => []
  | .publish t p r :: es => .publish t p r :: transportCalls es
  | .subscribe t :: es => .subscribe t :: transportCalls es
  | _ :: es => transportCalls es

/-- The topics subscribed to in a trace. -/
def subscribes : List Event → List String
  | [] => []
  | .subscribe t :: es => t :: subscribes es
  | _ :: es => subscribes es

/-- An entity with its computed topics blanked: everything `initialize` is not
meant to touch. -/
def Entity.withoutTopics : Entity → Entity
  | .sensor s => .sensor { s with m_state_topic := "" }
  | .binarySensor b => .binarySensor { b with m_state_topic := "" }
  | .switch s => .switch { s with m_state_topic := "", m_cmd_topic := "" }
  | .availability a => .availability { a with m_state_topic := "" }

/-- The topics of an entity: its state topic, and its command topic when it is
a switch. -/
def Entity.topics : Entity → String × Option String
  | .sensor s => (s.m_state_topic, none)
  | .binarySensor b => (b.m_state_topic, none)
  | .switch s => (s.m_state_topic, some s.m_cmd_topic)
  | .availability a => (a.m_state_topic, none)

/-- A topic fits the topic buffer as the rendering of `full`: it has at most
`TOPIC_BUFFER_SIZE - 1` bytes, is a prefix of `full`, and is `full` itself
whenever `full` has at most that many bytes. -/
def fitsBuffer (topic full : String) : Prop :=
  topic.length ≤ TOPIC_BUFFER_SIZE - 1 ∧ topic.data <+: full.data ∧
    (full.length ≤ TOPIC_BUFFER_SIZE - 1 → topic = full)

/-- The exact value of a finite binary32, `none` for the infinities and NaN. -/
def F32.toRat : F32 → Option ℚ
  | .finite neg m e => some (F32.signed neg m * (2 : ℚ) ^ e)
  | _ => none

/-- The arithmetic mean of the values in exact arithmetic: their sum divided by
their number, when all of them are finite. -/
def exactMean (values : List F32) : Option ℚ :=
  (values.mapM F32.toRat).map (fun qs => qs.sum / (qs.length : ℚ))

/-! ## Example inputs -/

/-- A device name of 80 bytes, one more than the topic buffer can hold. -/
def longDeviceName : String :=
  "aaaaaaaaaaaaaaaaaaaaaaaaaaaaaaaaaaaaaaaaaaaaaaaaaaaaaaaaaaaaaaaaaaaaaaaaaaaaaaaa"

/-- A small device identity used in the examples. -/
def demoContext : ComponentContext :=
  { mac_address := "AA:BB", device_name := "dev", friendly_name := "Device",
    fw_version := "1.0", model := "m", manufacturer := "acme" }

/-- The device identity of the examples under the 80-byte device name. -/
def longContext : ComponentContext :=
  { demoContext with device_name := longDeviceName }

/-- A world in which nothing has happened yet and the transport accepts every
call. -/
def World.quiet : World :=
  { events := [], accept := fun _ => true }

/-- The switch `relay` of device `dev`, initialized. -/
def demoSwitch : HAComponent.Switch :=
  ( HAComponent.Switch.initialize (HAComponent.Switch.new demoContext "relay" "Relay" 7 none))

/-- A second switch registered under the same id `relay`, initialized. -/
def twinSwitch : HAComponent.Switch :=
  ( HAComponent.Switch.initialize (HAComponent.Switch.new demoContext "relay" "Twin" 8 none))

/-- The float `10`. -/
def ten : F32 := F32.ofInt 10

/-- The sensor `temp` of device `dev`, initialized: window of 1000 ms, no
hysteresis. -/
def demoSensor : HAComponent.Sensor :=
  let s := HAComponent.Sensor.new demoContext "temp" "Temperature" 1000 F32.zero
    .Temperature none F32.zero
  { s with toHACompBase := HACompBase.initialize .Sensor s.toHACompBase }

/-- The sensor `temp` with hysteresis `0.5` whose last emitted value is `10`. -/
def hystSensor : HAComponent.Sensor :=
  { demoSensor with m_hysteresis := F32.ofRatio 1 2, m_last_value := ten }

/-- The binary sensor `t` of the device with the 80-byte name, initialized. -/
def longBinarySensor : Entity :=
  ( Entity.initialize (.binarySensor
    (HAComponent.BinarySensor.new longContext "t" "T" .Undefined none)))

/-- The binary sensor `door` of device `dev`, initialized. -/
def demoBinarySensor : Entity :=
  ( Entity.initialize (.binarySensor
    (HAComponent.BinarySensor.new demoContext "door" "Door" .door (some "mdi:door"))))

/-- The availability entity of device `dev`, initialized. -/
def demoAvailability : HAAvailabilityComponent :=
  ( HAAvailabilityComponent.initialize (HAAvailabilityComponent.new demoContext none))

/-- A world with an empty trace whose transport rejects every call. -/
def World.deaf : World :=
  { events := [], accept := fun _ => false }

/-- The switch `t` of the device with the 80-byte name, constructed only. -/
def longSwitch : HAComponent.Switch :=
  HAComponent.Switch.new longContext "t" "T" 0 none

/-- The float `1`. -/
def one : F32 := F32.ofInt 1

/-- The float `2^24 = 16777216`, above which binary32 no longer holds every
integer. -/
def twoPow24 : F32 := F32.ofInt 16777216

/-! ## Properties -/

theorem snprintf_of_length_le (size : Nat) (s : String) (h : s.length ≤ size - 1) :
    snprintf size s = s := by
  unfold snprintf
  have h1 : s.data.length ≤ size - 1 := h
  rw [List.take_of_length_le h1]

/-- C1 (as stated, refuted): with an 80-byte device name free of `/`, the state
topic computed by the generic initialize is not `d/sensor/i/state`. -/
theorem C1_counterexample :
    '/' ∉ longDeviceName.data ∧ '/' ∉ "t".data ∧
    ( HACompBase.initialize .Sensor
        (HACompBase.new longContext "t" "T" none)).m_state_topic
      ≠ longDeviceName ++ "/" ++ "sensor" ++ "/" ++ "t" ++ "/state" := by
  decide

/-- C1 (amended): for every device name `d` and entity id `i` without `/` and
every kind tag `k`, after the generic initialize the state topic is the first 79
bytes of `d/k/i/state`, and equals `d/k/i/state` whenever that has at most 79
bytes. -/
theorem C1_state_topic (c : Component) (self : HACompBase)
    (_hd : '/' ∉ self.context.device_name.data) (_hi : '/' ∉ self.m_id.data) :
    ( HACompBase.initialize c self).m_state_topic
        = ⟨(self.context.device_name ++ "/" ++ m_component c ++ "/" ++ self.m_id
              ++ "/state").data.take 79⟩ ∧
    ((self.context.device_name ++ "/" ++ m_component c ++ "/" ++ self.m_id
        ++ "/state").length ≤ 79 →
      ( HACompBase.initialize c self).m_state_topic
        = self.context.device_name ++ "/" ++ m_component c ++ "/" ++ self.m_id ++ "/state") := by
  refine ⟨rfl, fun h => ?_⟩
  exact snprintf_of_length_le TOPIC_BUFFER_SIZE _ h

/-- C1 at the sensor `t` of device `dev`. -/
theorem C1_state_topic_witness :
    ( HACompBase.initialize .Sensor (HACompBase.new demoContext "t" "T" none)).m_state_topic
      = "dev/sensor/t/state" :=
  (C1_state_topic .Sensor (HACompBase.new demoContext "t" "T" none)
    (by decide) (by decide)).2 (by decide)

theorem publishes_append (xs ys : List Event) :
    publishes (xs ++ ys) = publishes xs ++ publishes ys := by
  induction xs with
  | nil => rfl
  | cons x xs ih => cases x <;> simp [publishes, ih]

theorem callbacks_append (xs ys : List Event) :
    callbacks (xs ++ ys) = callbacks xs ++ callbacks ys := by
  induction xs with
  | nil => rfl
  | cons x xs ih => cases x <;> simp [callbacks, ih]

/-- C2 (as stated, refuted): with an 80-byte device name, `publishConfig(true)`
publishes nothing to `homeassistant/binary_sensor/d/t/config`. -/
theorem C2_counterexample :
    "homeassistant/" ++ "binary_sensor" ++ "/" ++ longDeviceName ++ "/" ++ "t" ++ "/config"
      ∉ (publishes ( HACompBase.publishConfig .BinarySensor
          (HACompBase.new longContext "t" "T" none) HACompBase.getConfigInfo true
          World.quiet).events).map Prod.fst := by
  decide

/-- C2 (amended): for every device name `d`, entity id `i` and kind tag `k`,
`publishConfig(true)` ends, after whatever `getConfigInfo` did, by printing the
topic and publishing the configuration document, retained, to the first 79
bytes of `homeassistant/k/d/i/config`, which is that whole string whenever it
has at most 79 bytes; the only thing that may follow is the error line of a
rejected publish. -/
theorem C2_config_published (c : Component) (self : HACompBase)
    (getConfigInfo : JsonObject → World → JsonObject × World) (w : World) :
    ( HACompBase.publishConfig c self getConfigInfo true w).events
      = (self.configDocument getConfigInfo w).2.events
        ++ [Event.print "publish: ", Event.print (HACompBase.configTopic c self),
            Event.println "",
            Event.publish (HACompBase.configTopic c self)
              (.json (self.configDocument getConfigInfo w).1) true]
        ++ (if (self.configDocument getConfigInfo w).2.accept
                ((self.configDocument getConfigInfo w).2.events.length + 3)
            then [] else [Event.println "ERROR PUBLISHING TOPIC"]) ∧
    HACompBase.configTopic c self
      = ⟨("homeassistant/" ++ m_component c ++ "/" ++ self.context.device_name ++ "/"
            ++ self.m_id ++ "/config").data.take 79⟩ ∧
    (("homeassistant/" ++ m_component c ++ "/" ++ self.context.device_name ++ "/"
        ++ self.m_id ++ "/config").length ≤ 79 →
      HACompBase.configTopic c self
        = "homeassistant/" ++ m_component c ++ "/" ++ self.context.device_name ++ "/"
            ++ self.m_id ++ "/config") := by
  refine ⟨?_, rfl, fun h => snprintf_of_length_le TOPIC_BUFFER_SIZE _ h⟩
  simp only [HACompBase.publishConfig, World.publish, World.emit, if_true]
  cases hacc : (self.configDocument getConfigInfo w).2.accept
      ((self.configDocument getConfigInfo w).2.events.length + 3) <;>
    simp [hacc, World.emit, List.append_assoc]

/-- C2 at the binary sensor `t` of device `dev`. -/
theorem C2_config_published_witness :
    HACompBase.configTopic .BinarySensor (HACompBase.new demoContext "t" "T" none)
      = "homeassistant/binary_sensor/dev/t/config" :=
  (C2_config_published .BinarySensor (HACompBase.new demoContext "t" "T" none)
    HACompBase.getConfigInfo World.quiet).2.2 (by decide)

/-- C3 (as stated, refuted): with an 80-byte device name, the command topic of
an initialized switch is not `d/switch/i/ctrl`. -/
theorem C3_counterexample :
    ( HAComponent.Switch.initialize
        (HAComponent.Switch.new longContext "t" "T" 0 none)).m_cmd_topic
      ≠ longDeviceName ++ "/switch/" ++ "t" ++ "/ctrl" := by
  decide

theorem switch_topic_eq (d i suffix : String) :
    d ++ "/" ++ m_component .Switch ++ "/" ++ i ++ suffix = d ++ "/switch/" ++ i ++ suffix := by
  apply String.ext
  simp [m_component, String.data_append]

/-- C3 (amended): for every device name `d` and entity id `i`, after initialize
a switch's command topic is the first 79 bytes of `d/switch/i/ctrl`, equal to
`d/switch/i/ctrl` whenever that has at most 79 bytes, and its state topic is the
one computed by the generic initialize (the first 79 bytes of
`d/switch/i/state`). -/
theorem C3_switch_topics (self : HAComponent.Switch) :
    ( HAComponent.Switch.initialize self).m_cmd_topic
      = ⟨(self.context.device_name ++ "/switch/" ++ self.m_id ++ "/ctrl").data.take 79⟩ ∧
    ((self.context.device_name ++ "/switch/" ++ self.m_id ++ "/ctrl").length ≤ 79 →
      ( HAComponent.Switch.initialize self).m_cmd_topic
        = self.context.device_name ++ "/switch/" ++ self.m_id ++ "/ctrl") ∧
    ( HAComponent.Switch.initialize self).m_state_topic
      = ( HACompBase.initialize .Switch self.toHACompBase).m_state_topic ∧
    ( HAComponent.Switch.initialize self).m_state_topic
      = ⟨(self.context.device_name ++ "/switch/" ++ self.m_id ++ "/state").data.take 79⟩ := by
  have hc : ( HAComponent.Switch.initialize self).m_cmd_topic
      = snprintf TOPIC_BUFFER_SIZE
          (self.context.device_name ++ "/switch/" ++ self.m_id ++ "/ctrl") := by
    rw [← switch_topic_eq]; rfl
  have hs : ( HAComponent.Switch.initialize self).m_state_topic
      = snprintf TOPIC_BUFFER_SIZE
          (self.context.device_name ++ "/switch/" ++ self.m_id ++ "/state") := by
    rw [← switch_topic_eq]; rfl
  refine ⟨hc, fun h => ?_, rfl, hs⟩
  rw [hc]
  exact snprintf_of_length_le TOPIC_BUFFER_SIZE _ h

/-- C3 at the switch `relay` of device `dev`. -/
theorem C3_switch_topics_witness :
    ( HAComponent.Switch.initialize
        (HAComponent.Switch.new demoContext "relay" "Relay" 7 none)).m_cmd_topic
      = "dev/switch/relay/ctrl" :=
  (C3_switch_topics (HAComponent.Switch.new demoContext "relay" "Relay" 7 none)).2.1
    (by decide)

/-- C4: `setState(b)` stores `b`, calls the callback with `b` and then publishes
`"ON"` if `b` else `"OFF"`, retained, on the state topic; so `setState(true)`
followed by `setState(false)` adds to the trace exactly callback(true),
publish("ON"), callback(false), publish("OFF"), both publishes retained and on
the switch's state topic, and leaves the stored state false. -/
theorem C4_setState (sw : HAComponent.Switch) (w : World) :
    (∀ (b : Bool) (v : World),
      (sw.setState b v).1 = { sw with m_state := b } ∧
      (sw.setState b v).2.events = v.events ++
        [Event.callback sw.m_callback b,
         Event.publish sw.m_state_topic (.text (if b then "ON" else "OFF")) true]) ∧
    ((sw.setState true w).1.setState false (sw.setState true w).2).2.events
      = w.events ++
        [Event.callback sw.m_callback true,
         Event.publish sw.m_state_topic (.text "ON") true,
         Event.callback sw.m_callback false,
         Event.publish sw.m_state_topic (.text "OFF") true] ∧
    publishes ((sw.setState true w).1.setState false (sw.setState true w).2).2.events
      = publishes w.events ++
        [(sw.m_state_topic, .text "ON", true), (sw.m_state_topic, .text "OFF", true)] ∧
    callbacks ((sw.setState true w).1.setState false (sw.setState true w).2).2.events
      = callbacks w.events ++ [(sw.m_callback, true), (sw.m_callback, false)] ∧
    ((sw.setState true w).1.setState false (sw.setState true w).2).1
      = { sw with m_state := false } := by
  have hgen : ∀ (s : HAComponent.Switch) (b : Bool) (v : World),
      (s.setState b v).1 = { s with m_state := b } ∧
      (s.setState b v).2.events = v.events ++
        [Event.callback s.m_callback b,
         Event.publish s.m_state_topic (.text (if b then "ON" else "OFF")) true] := by
    intro s b v
    cases b <;>
      simp [HAComponent.Switch.setState, HAComponent.Switch.reportState, World.publish,
        World.emit, HAComponent.Switch.ON, HAComponent.Switch.OFF]
  have h1 := hgen sw true w
  have h2 := hgen (sw.setState true w).1 false (sw.setState true w).2
  have hev : ((sw.setState true w).1.setState false (sw.setState true w).2).2.events
      = w.events ++
        [Event.callback sw.m_callback true,
         Event.publish sw.m_state_topic (.text "ON") true,
         Event.callback sw.m_callback false,
         Event.publish sw.m_state_topic (.text "OFF") true] := by
    rw [h2.2, h1.2, h1.1]; simp
  refine ⟨hgen sw, hev, ?_, ?_, ?_⟩
  · rw [hev, publishes_append]; rfl
  · rw [hev, callbacks_append]; rfl
  · rw [h2.1, h1.1]

theorem processMqttTopic_first_match (pre : List HAComponent.Switch)
    (sw : HAComponent.Switch) (post : List HAComponent.Switch) (topic value : String)
    (w : World) (hpre : ∀ s ∈ pre, s.m_cmd_topic ≠ topic) (hsw : sw.m_cmd_topic = topic) :
    HAComponent.Switch.processMqttTopic (pre ++ sw :: post) topic value w
      = (pre ++ (sw.applyCommand value w).1 :: post, (sw.applyCommand value w).2) := by
  induction pre with
  | nil => simp [HAComponent.Switch.processMqttTopic, hsw]
  | cons p pre ih =>
    have hp : p.m_cmd_topic ≠ topic := hpre p (List.mem_cons_self _ _)
    have ih1 := ih (fun s hs => hpre s (List.mem_cons_of_mem _ hs))
    simp [HAComponent.Switch.processMqttTopic, hp, ih1]

theorem processMqttTopic_no_match (switches : List HAComponent.Switch)
    (topic value : String) (w : World) (h : ∀ s ∈ switches, s.m_cmd_topic ≠ topic) :
    HAComponent.Switch.processMqttTopic switches topic value w = (switches, w) := by
  induction switches with
  | nil => rfl
  | cons p rest ih =>
    have hp : p.m_cmd_topic ≠ topic := h p (List.mem_cons_self _ _)
    have ih1 := ih (fun s hs => h s (List.mem_cons_of_mem _ hs))
    simp [HAComponent.Switch.processMqttTopic, hp, ih1]

/-- C5 (as stated, refuted): two switches registered under the same id share a
command topic; a message `"ON"` on that topic leaves the state of the second
one false. -/
theorem C5_counterexample :
    twinSwitch ∈ [demoSwitch, twinSwitch] ∧
    twinSwitch.m_cmd_topic = "dev/switch/relay/ctrl" ∧
    equalsIgnoreCase "ON" "ON" = true ∧
    ((HAComponent.Switch.processMqttTopic [demoSwitch, twinSwitch]
        "dev/switch/relay/ctrl" "ON" World.quiet).1.map (fun s => s.m_state))
      = [true, false] := by
  decide

/-- C5 (amended): for every inbound message whose topic equals the command topic
of a switch, and for the first such switch in registration order: a payload
equal to `"ON"` ignoring ASCII case makes its state true, one equal to `"OFF"`
ignoring case makes it false, and for every other payload no switch changes, the
callback is not invoked, nothing is published and the invalid-payload line is
logged. -/
theorem C5_command_decoding (pre : List HAComponent.Switch) (sw : HAComponent.Switch)
    (post : List HAComponent.Switch) (topic value : String) (w : World)
    (hpre : ∀ s ∈ pre, s.m_cmd_topic ≠ topic) (hsw : sw.m_cmd_topic = topic) :
    (equalsIgnoreCase value "ON" = true →
      (HAComponent.Switch.processMqttTopic (pre ++ sw :: post) topic value w).1
        = pre ++ { sw with m_state := true } :: post) ∧
    (equalsIgnoreCase value "OFF" = true →
      (HAComponent.Switch.processMqttTopic (pre ++ sw :: post) topic value w).1
        = pre ++ { sw with m_state := false } :: post) ∧
    (equalsIgnoreCase value "ON" = false → equalsIgnoreCase value "OFF" = false →
      (HAComponent.Switch.processMqttTopic (pre ++ sw :: post) topic value w).1
        = pre ++ sw :: post ∧
      (HAComponent.Switch.processMqttTopic (pre ++ sw :: post) topic value w).2.events
        = w.events ++ [Event.print "Invalid payload received for switch: ",
                       Event.println value] ∧
      callbacks (HAComponent.Switch.processMqttTopic (pre ++ sw :: post) topic value w).2.events
        = callbacks w.events ∧
      publishes (HAComponent.Switch.processMqttTopic (pre ++ sw :: post) topic value w).2.events
        = publishes w.events) := by
  rw [processMqttTopic_first_match pre sw post topic value w hpre hsw]
  have hexcl : equalsIgnoreCase value "OFF" = true → equalsIgnoreCase value "ON" = false := by
    intro hoff
    cases hon : equalsIgnoreCase value "ON" with
    | false => rfl
    | true =>
      exfalso
      simp only [equalsIgnoreCase, beq_iff_eq] at hoff hon
      rw [hoff] at hon
      revert hon
      decide
  refine ⟨fun hon => ?_, fun hoff => ?_, fun hon hoff => ?_⟩
  · simp [HAComponent.Switch.applyCommand, HAComponent.Switch.ON, hon,
      HAComponent.Switch.setState]
  · simp [HAComponent.Switch.applyCommand, HAComponent.Switch.ON, HAComponent.Switch.OFF,
      hexcl hoff, hoff, HAComponent.Switch.setState]
  · have hw : (sw.applyCommand value w)
        = (sw, (w.emit (.print "Invalid payload received for switch: ")).emit
                (.println value)) := by
      simp [HAComponent.Switch.applyCommand, HAComponent.Switch.ON, HAComponent.Switch.OFF,
        hon, hoff]
    rw [hw]
    refine ⟨rfl, ?_, ?_, ?_⟩
    · simp [World.emit]
    · simp [World.emit, callbacks_append, callbacks]
    · simp [World.emit, publishes_append, publishes]

/-- C5 at the switch `relay`: the payload `"on"` switches it on. -/
theorem C5_command_decoding_witness :
    (HAComponent.Switch.processMqttTopic ([] ++ demoSwitch :: [twinSwitch])
        "dev/switch/relay/ctrl" "on" World.quiet).1
      = [] ++ { demoSwitch with m_state := true } :: [twinSwitch] :=
  (C5_command_decoding [] demoSwitch [twinSwitch] "dev/switch/relay/ctrl" "on" World.quiet
    (by decide) (by decide)).1 (by decide)

theorem applyCommand_on (sw : HAComponent.Switch) (value : String) (w : World)
    (hon : equalsIgnoreCase value "ON" = true) :
    sw.applyCommand value w
      = ({ sw with m_state := true },
         { w with events := w.events ++
            [Event.callback sw.m_callback true,
             Event.publish sw.m_state_topic (.text "ON") true] }) := by
  simp [HAComponent.Switch.applyCommand, HAComponent.Switch.ON, hon,
    HAComponent.Switch.setState, HAComponent.Switch.reportState, World.publish, World.emit]

theorem applyCommand_off (sw : HAComponent.Switch) (value : String) (w : World)
    (hon : equalsIgnoreCase value "ON" = false) (hoff : equalsIgnoreCase value "OFF" = true) :
    sw.applyCommand value w
      = ({ sw with m_state := false },
         { w with events := w.events ++
            [Event.callback sw.m_callback false,
             Event.publish sw.m_state_topic (.text "OFF") true] }) := by
  simp [HAComponent.Switch.applyCommand, HAComponent.Switch.ON, HAComponent.Switch.OFF, hon,
    hoff, HAComponent.Switch.setState, HAComponent.Switch.reportState, World.publish,
    World.emit]

theorem applyCommand_invalid (sw : HAComponent.Switch) (value : String) (w : World)
    (hon : equalsIgnoreCase value "ON" = false) (hoff : equalsIgnoreCase value "OFF" = false) :
    sw.applyCommand value w
      = (sw, { w with events := w.events ++
            [Event.print "Invalid payload received for switch: ", Event.println value] }) := by
  simp [HAComponent.Switch.applyCommand, HAComponent.Switch.ON, HAComponent.Switch.OFF, hon,
    hoff, World.emit]

/-- C6: on every inbound message, with the payload read up to its first NUL
byte, the command is applied to the first switch in registration order whose
command topic equals the topic, and to no other, also when several switches
share that command topic: on `"ON"` (ignoring case) that switch's state becomes
true, its callback is called with true and `"ON"` is published, retained, on
its state topic; on `"OFF"` the same with false and `"OFF"`; on any other
payload no switch changes and only the invalid-payload line is logged.  In all
three cases the switches before and after it are left as they were.  When no
command topic equals the topic, the switches and the trace (callbacks,
publishes) are unchanged. -/
theorem C6_dispatch_frame (m_switches : List HAComponent.Switch) (topic payload : String)
    (w : World) :
    (∀ pre sw post, m_switches = pre ++ sw :: post →
      (∀ s ∈ pre, s.m_cmd_topic ≠ topic) → sw.m_cmd_topic = topic →
      (equalsIgnoreCase ⟨payload.data.takeWhile (fun ch => ch != Char.ofNat 0)⟩ "ON" = true →
        (HAComponentManager.onMessageReceived m_switches topic payload w).1
          = pre ++ { sw with m_state := true } :: post ∧
        (HAComponentManager.onMessageReceived m_switches topic payload w).2.events
          = w.events ++ [Event.callback sw.m_callback true,
                         Event.publish sw.m_state_topic (.text "ON") true]) ∧
      (equalsIgnoreCase ⟨payload.data.takeWhile (fun ch => ch != Char.ofNat 0)⟩ "ON" = false →
        equalsIgnoreCase ⟨payload.data.takeWhile (fun ch => ch != Char.ofNat 0)⟩ "OFF" = true →
        (HAComponentManager.onMessageReceived m_switches topic payload w).1
          = pre ++ { sw with m_state := false } :: post ∧
        (HAComponentManager.onMessageReceived m_switches topic payload w).2.events
          = w.events ++ [Event.callback sw.m_callback false,
                         Event.publish sw.m_state_topic (.text "OFF") true]) ∧
      (equalsIgnoreCase ⟨payload.data.takeWhile (fun ch => ch != Char.ofNat 0)⟩ "ON" = false →
        equalsIgnoreCase ⟨payload.data.takeWhile (fun ch => ch != Char.ofNat 0)⟩ "OFF" = false →
        (HAComponentManager.onMessageReceived m_switches topic payload w).1 = m_switches ∧
        (HAComponentManager.onMessageReceived m_switches topic payload w).2.events
          = w.events ++ [Event.print "Invalid payload received for switch: ",
              Event.println ⟨payload.data.takeWhile (fun ch => ch != Char.ofNat 0)⟩])) ∧
    ((∀ s ∈ m_switches, s.m_cmd_topic ≠ topic) →
      (HAComponentManager.onMessageReceived m_switches topic payload w).1 = m_switches ∧
      (HAComponentManager.onMessageReceived m_switches topic payload w).2 = w) := by
  constructor
  · intro pre sw post hm hpre hsw
    subst hm
    simp only [HAComponentManager.onMessageReceived]
    rw [processMqttTopic_first_match pre sw post topic _ w hpre hsw]
    refine ⟨fun hon => ?_, fun hon hoff => ?_, fun hon hoff => ?_⟩
    · rw [applyCommand_on sw _ w hon]
      exact ⟨rfl, rfl⟩
    · rw [applyCommand_off sw _ w hon hoff]
      exact ⟨rfl, rfl⟩
    · rw [applyCommand_invalid sw _ w hon hoff]
      exact ⟨rfl, rfl⟩
  · intro h
    simp only [HAComponentManager.onMessageReceived]
    rw [processMqttTopic_no_match m_switches topic _ w h]
    exact ⟨rfl, rfl⟩

/-- C6 with two switches sharing a command topic, on the payload `"ON"`: the
first becomes true, its callback runs and `"ON"` is published on its state
topic; the second stays false. -/
theorem C6_dispatch_frame_witness :
    ((HAComponentManager.onMessageReceived [demoSwitch, twinSwitch]
        "dev/switch/relay/ctrl" "ON" World.quiet).1
      = [] ++ { demoSwitch with m_state := true } :: [twinSwitch] ∧
    (HAComponentManager.onMessageReceived [demoSwitch, twinSwitch]
        "dev/switch/relay/ctrl" "ON" World.quiet).2.events
      = World.quiet.events ++ [Event.callback demoSwitch.m_callback true,
          Event.publish demoSwitch.m_state_topic (.text "ON") true]) ∧
    (HAComponentManager.onMessageReceived [demoSwitch, twinSwitch]
        "dev/switch/relay/ctrl" "ON" World.quiet).1.map (fun s => s.m_state) = [true, false] ∧
    (HAComponentManager.onMessageReceived [demoSwitch, twinSwitch]
        "dev/switch/relay/ctrl" "ON" World.quiet).2.events
      = [Event.callback 7 true, Event.publish "dev/switch/relay/state" (.text "ON") true] :=
  ⟨((C6_dispatch_frame [demoSwitch, twinSwitch] "dev/switch/relay/ctrl" "ON" World.quiet).1
      [] demoSwitch [twinSwitch] rfl (by decide) (by decide)).1 (by decide),
   by decide, by decide⟩

theorem toInt32_of_range (x : Int) (h0 : -(2 ^ 31) ≤ x) (h1 : x < 2 ^ 31) : toInt32 x = x := by
  unfold toInt32
  omega

theorem update_not_finite (s : HAComponent.Sensor) (value : F32) (millis : Nat) (w : World)
    (h : value.isFinite = false) : s.update value millis w = (s, w) := by
  simp [HAComponent.Sensor.update, h]

theorem update_open (s : HAComponent.Sensor) (value : F32) (millis : Nat) (w : World)
    (hfin : value.isFinite = true) (hopen : s.elapsed millis ≤ s.m_sample_interval) :
    s.update value millis w
      = ({ s with m_samples := toInt32 (s.m_samples + 1), m_sum := F32.add s.m_sum value }, w) := by
  have h : ¬ s.m_sample_interval < s.elapsed millis := not_lt.mpr hopen
  simp [HAComponent.Sensor.update, hfin, h]

theorem update_close (s : HAComponent.Sensor) (value : F32) (millis : Nat) (w : World)
    (hfin : value.isFinite = true) (hclose : s.m_sample_interval < s.elapsed millis) :
    s.update value millis w
      = if s.significant (s.avg_value value) then
          ({ s with m_last_ts := toInt32 millis, m_samples := 0, m_sum := F32.zero,
                    m_last_value := s.avg_value value },
            { w with events := w.events ++
                [Event.publish s.m_state_topic (.decimal (s.avg_value value)) true] })
        else
          ({ s with m_last_ts := toInt32 millis, m_samples := 0, m_sum := F32.zero }, w) := by
  simp only [HAComponent.Sensor.update, hfin, hclose, Bool.not_true, Bool.false_eq_true,
    if_false, if_true]
  split <;> rfl

/-- C7 (as stated, refuted): a sensor without hysteresis is fed `FLT_MAX` twice;
the second update closes the window with mean `+inf`, and nothing is
published although the hysteresis is zero. -/
theorem C7_counterexample :
    F32.eq demoSensor.m_hysteresis F32.zero = true ∧
    F32.isFinite F32.max = true ∧
    (demoSensor.update F32.max 1 World.quiet).1.m_sample_interval
      < (demoSensor.update F32.max 1 World.quiet).1.elapsed 2000 ∧
    (demoSensor.update F32.max 1 World.quiet).1.avg_value F32.max = .inf false ∧
    (demoSensor.feed [(F32.max, 1), (F32.max, 2000)] World.quiet).1.m_last_ts = 2000 ∧
    (demoSensor.feed [(F32.max, 1), (F32.max, 2000)] World.quiet).2.events = [] := by
  decide!

/-- C7 (amended): whenever an update closes a sampling window with mean `m`,
hysteresis `h` and last emitted value `L`, the sensor publishes `m` as its new
state if and only if `m` is finite and (`h == 0` or `m <= L - h` or
`m >= L + h`); when it publishes, the last emitted value becomes `m`, and when
it does not, the last emitted value stays `L`. -/
theorem C7_hysteresis_gate (s : HAComponent.Sensor) (value : F32) (millis : Nat) (w : World)
    (hfin : value.isFinite = true) (hclose : s.m_sample_interval < s.elapsed millis) :
    (((s.avg_value value).isFinite = true ∧
        (F32.eq s.m_hysteresis F32.zero = true ∨
          F32.le (s.avg_value value) (F32.sub s.m_last_value s.m_hysteresis) = true ∨
          F32.ge (s.avg_value value) (F32.add s.m_last_value s.m_hysteresis) = true)) →
      (s.update value millis w).2.events
        = w.events ++ [Event.publish s.m_state_topic (.decimal (s.avg_value value)) true] ∧
      (s.update value millis w).1.m_last_value = s.avg_value value) ∧
    (¬ ((s.avg_value value).isFinite = true ∧
        (F32.eq s.m_hysteresis F32.zero = true ∨
          F32.le (s.avg_value value) (F32.sub s.m_last_value s.m_hysteresis) = true ∨
          F32.ge (s.avg_value value) (F32.add s.m_last_value s.m_hysteresis) = true)) →
      (s.update value millis w).2.events = w.events ∧
      (s.update value millis w).1.m_last_value = s.m_last_value) := by
  have hsig : s.significant (s.avg_value value) = true ↔
      ((s.avg_value value).isFinite = true ∧
        (F32.eq s.m_hysteresis F32.zero = true ∨
          F32.le (s.avg_value value) (F32.sub s.m_last_value s.m_hysteresis) = true ∨
          F32.ge (s.avg_value value) (F32.add s.m_last_value s.m_hysteresis) = true)) := by
    simp [HAComponent.Sensor.significant]
  rw [update_close s value millis w hfin hclose, ← hsig]
  constructor
  · intro h
    rw [if_pos h]
    exact ⟨rfl, rfl⟩
  · intro h
    rw [if_neg h]
    exact ⟨rfl, rfl⟩

/-- C7 at hysteresis `0.5` and last emitted value `10`: a window mean of `10.3`
is not emitted, a window mean of `10.6` is emitted and becomes the last emitted
value. -/
theorem C7_hysteresis_gate_witness :
    (hystSensor.avg_value (F32.ofRatio 103 10) = F32.ofRatio 103 10 ∧
      (hystSensor.update (F32.ofRatio 103 10) 2000 World.quiet).2.events = World.quiet.events ∧
      (hystSensor.update (F32.ofRatio 103 10) 2000 World.quiet).1.m_last_value = ten) ∧
    (hystSensor.avg_value (F32.ofRatio 106 10) = F32.ofRatio 106 10 ∧
      (hystSensor.update (F32.ofRatio 106 10) 2000 World.quiet).2.events
        = World.quiet.events ++ [Event.publish "dev/sensor/temp/state"
            (.decimal (hystSensor.avg_value (F32.ofRatio 106 10))) true] ∧
      (hystSensor.update (F32.ofRatio 106 10) 2000 World.quiet).1.m_last_value
        = hystSensor.avg_value (F32.ofRatio 106 10)) :=
  ⟨⟨by decide!,
    (C7_hysteresis_gate hystSensor (F32.ofRatio 103 10) 2000 World.quiet
      (by decide!) (by decide!)).2 (by decide!)⟩,
   ⟨by decide!,
    (C7_hysteresis_gate hystSensor (F32.ofRatio 106 10) 2000 World.quiet
      (by decide!) (by decide!)).1 (by decide!)⟩⟩

/-- C8 (as stated, refuted): with a window of 1000 ms started at 0, an update of
the finite value `10` at clock time 1000 (elapsed time equal to the window
length) does not close the window: the sample stays accumulated and the window
start stays 0. -/
theorem C8_counterexample :
    ten.isFinite = true ∧
    demoSensor.m_last_ts = 0 ∧
    demoSensor.m_sample_interval = 1000 ∧
    demoSensor.elapsed 1000 = 1000 ∧
    (demoSensor.update ten 1000 World.quiet).1.m_last_ts = 0 ∧
    (demoSensor.update ten 1000 World.quiet).1.m_samples = 1 ∧
    (demoSensor.update ten 1000 World.quiet).1.m_sum = ten := by
  decide!

/-- C8 (amended): for every finite value passed to update at clock time `ts`, the
sampling window closes (accumulator reset, window start set to `ts`) if and
only if the elapsed time `ts - m_last_ts`, computed in `long`, is strictly
greater than the configured window length; otherwise the value is accumulated,
the window start is kept and nothing is published.  The elapsed time is the
plain difference as long as the clock has not passed `2^31` ms. -/
theorem C8_window_close (s : HAComponent.Sensor) (value : F32) (millis : Nat) (w : World)
    (hfin : value.isFinite = true) :
    (s.m_sample_interval < s.elapsed millis →
      (s.update value millis w).1.m_last_ts = toInt32 millis ∧
      (s.update value millis w).1.m_samples = 0 ∧
      (s.update value millis w).1.m_sum = F32.zero) ∧
    (s.elapsed millis ≤ s.m_sample_interval →
      (s.update value millis w).1
        = { s with m_samples := toInt32 (s.m_samples + 1),
                   m_sum := F32.add s.m_sum value } ∧
      (s.update value millis w).2 = w) ∧
    ((millis : Int) < 2 ^ 31 → 0 ≤ s.m_last_ts → s.m_last_ts ≤ millis →
      toInt32 millis = millis ∧ s.elapsed millis = millis - s.m_last_ts) := by
  refine ⟨fun hclose => ?_, fun hopen => ?_, fun h1 h2 h3 => ?_⟩
  · rw [update_close s value millis w hfin hclose]
    split <;> exact ⟨rfl, rfl, rfl⟩
  · rw [update_open s value millis w hfin hopen]
    exact ⟨rfl, rfl⟩
  · have ht : toInt32 millis = millis := toInt32_of_range _ (by omega) h1
    refine ⟨ht, ?_⟩
    unfold HAComponent.Sensor.elapsed
    rw [ht]
    exact toInt32_of_range _ (by omega) (by omega)

/-- C8 on a window of 1000 ms started at 0: an update at clock time 1001 closes
the window. -/
theorem C8_window_close_witness :
    (demoSensor.update ten 1001 World.quiet).1.m_last_ts = toInt32 (1001 : Nat) ∧
    (demoSensor.update ten 1001 World.quiet).1.m_samples = 0 ∧
    (demoSensor.update ten 1001 World.quiet).1.m_sum = F32.zero :=
  (C8_window_close demoSensor ten 1001 World.quiet (by decide!)).1 (by decide!)

theorem finiteValues_cons_finite (value : F32) (millis : Nat) (rest : List (F32 × Nat))
    (h : value.isFinite = true) :
    finiteValues ((value, millis) :: rest) = value :: finiteValues rest := by
  simp [finiteValues, h]

theorem finiteValues_cons_not_finite (value : F32) (millis : Nat) (rest : List (F32 × Nat))
    (h : value.isFinite = false) :
    finiteValues ((value, millis) :: rest) = finiteValues rest := by
  simp [finiteValues, h]

/-- While no update closes the window, a run of updates only accumulates: the
sum grows by the finite values in order, the count by their number. -/
theorem feed_open (inputs : List (F32 × Nat)) (s : HAComponent.Sensor) (w : World)
    (hopen : ∀ p ∈ inputs, s.elapsed p.2 ≤ s.m_sample_interval)
    (h0 : 0 ≤ s.m_samples)
    (hlen : s.m_samples + ((finiteValues inputs).length : Int) < 2 ^ 31) :
    s.feed inputs w
      = ({ s with m_samples := s.m_samples + ((finiteValues inputs).length : Int),
                  m_sum := (finiteValues inputs).foldl F32.add s.m_sum }, w) := by
  induction inputs generalizing s with
  | nil => simp [HAComponent.Sensor.feed, finiteValues]
  | cons p rest ih =>
    obtain ⟨value, millis⟩ := p
    have hp : s.elapsed millis ≤ s.m_sample_interval := hopen (value, millis) (List.mem_cons_self _ _)
    have hrest : ∀ q ∈ rest, s.elapsed q.2 ≤ s.m_sample_interval :=
      fun q hq => hopen q (List.mem_cons_of_mem _ hq)
    cases hfin : value.isFinite with
    | false =>
      rw [finiteValues_cons_not_finite value millis rest hfin] at hlen ⊢
      simp only [HAComponent.Sensor.feed]
      rw [update_not_finite s value millis w hfin]
      exact ih s hrest h0 hlen
    | true =>
      rw [finiteValues_cons_finite value millis rest hfin] at hlen ⊢
      simp only [List.length_cons, Nat.cast_add, Nat.cast_one] at hlen
      simp only [HAComponent.Sensor.feed]
      rw [update_open s value millis w hfin hp]
      have hk : toInt32 (s.m_samples + 1) = s.m_samples + 1 :=
        toInt32_of_range _ (by omega) (by omega)
      rw [hk]
      rw [ih { s with m_samples := s.m_samples + 1, m_sum := F32.add s.m_sum value }
        hrest (by show 0 ≤ s.m_samples + 1; omega)
        (by show s.m_samples + 1 + ((finiteValues rest).length : Int) < 2 ^ 31; omega)]
      simp only [List.length_cons, Nat.cast_add, Nat.cast_one, List.foldl_cons]
      have e : s.m_samples + 1 + ((finiteValues rest).length : Int)
          = s.m_samples + (((finiteValues rest).length : Int) + 1) := by omega
      rw [e]

/-- C9 (as stated, refuted): within one window of 1000 ms a fresh sensor is fed
the finite values `2^24`, `1`, `1`, the third closing the window.  Their
arithmetic mean is `5592406`, which binary32 represents exactly, but the mean
the code computes and publishes is `5592405.5`: the running float sum stays at
`2^24` and the quotient by `3` is rounded.  Fed `FLT_MAX` twice, the computed
mean is `+inf` while the arithmetic mean is `FLT_MAX`. -/
theorem C9_counterexample :
    (demoSensor.m_sum = F32.zero ∧ demoSensor.m_samples = 0) ∧
    finiteValues [(twoPow24, 100), (one, 200)] = [twoPow24, one] ∧
    one.isFinite = true ∧
    (demoSensor.elapsed 100 ≤ demoSensor.m_sample_interval ∧
      demoSensor.elapsed 200 ≤ demoSensor.m_sample_interval ∧
      demoSensor.m_sample_interval < demoSensor.elapsed 1001) ∧
    exactMean [twoPow24, one, one] = some 5592406 ∧
    F32.toRat (F32.ofInt 5592406) = some 5592406 ∧
    (demoSensor.feed [(twoPow24, 100), (one, 200)] World.quiet).1.avg_value one
      = F32.finite false 11184811 (-1) ∧
    F32.toRat ((demoSensor.feed [(twoPow24, 100), (one, 200)] World.quiet).1.avg_value one)
      = some (11184811 / 2) ∧
    F32.toRat ((demoSensor.feed [(twoPow24, 100), (one, 200)] World.quiet).1.avg_value one)
      ≠ exactMean [twoPow24, one, one] ∧
    (demoSensor.feed [(twoPow24, 100), (one, 200), (one, 1001)] World.quiet).2.events
      = [Event.publish "dev/sensor/temp/state"
          (.decimal (F32.finite false 11184811 (-1))) true] ∧
    (exactMean [F32.max, F32.max] = F32.toRat F32.max ∧
      (demoSensor.feed [(F32.max, 100)] World.quiet).1.avg_value F32.max = F32.inf false) := by
  decide!

/-- C9 (amended): start from an empty accumulator (a sensor just constructed, or
just after a window close) and feed any run of updates none of which closes
the window; then for the finite value of the update that closes the window,
the mean computed is the binary32 quotient of the running binary32 sum (the
finite values fed since, this one included, added in call order, each
addition rounded) by their count converted to float (fewer than `2^31`
samples), and it is the value published when the mean is significant. -/
theorem C9_window_mean (s0 : HAComponent.Sensor) (inputs : List (F32 × Nat)) (value : F32)
    (millis : Nat) (w : World)
    (hsum : s0.m_sum = F32.zero) (hcount : s0.m_samples = 0)
    (hopen : ∀ p ∈ inputs, s0.elapsed p.2 ≤ s0.m_sample_interval)
    (hfin : value.isFinite = true)
    (hclose : s0.m_sample_interval < s0.elapsed millis)
    (hlen : (finiteValues inputs).length + 1 < 2 ^ 31) :
    (s0.feed inputs w).1.avg_value value
      = F32.div ((finiteValues inputs ++ [value]).foldl F32.add F32.zero)
          (F32.ofInt (((finiteValues inputs ++ [value]).length : Nat) : Int)) ∧
    ((s0.feed inputs w).1.significant ((s0.feed inputs w).1.avg_value value) = true →
      ((s0.feed inputs w).1.update value millis (s0.feed inputs w).2).2.events
        = w.events ++ [Event.publish s0.m_state_topic
            (.decimal (F32.div ((finiteValues inputs ++ [value]).foldl F32.add F32.zero)
              (F32.ofInt (((finiteValues inputs ++ [value]).length : Nat) : Int)))) true]) := by
  have hl : s0.m_samples + ((finiteValues inputs).length : Int) < 2 ^ 31 := by
    rw [hcount]
    have : ((finiteValues inputs).length : Int) + 1 < 2 ^ 31 := by exact_mod_cast hlen
    omega
  have hfeed := feed_open inputs s0 w hopen (by rw [hcount]) hl
  have havg : (s0.feed inputs w).1.avg_value value
      = F32.div ((finiteValues inputs ++ [value]).foldl F32.add F32.zero)
          (F32.ofInt (((finiteValues inputs ++ [value]).length : Nat) : Int)) := by
    rw [hfeed]
    have hk : toInt32 (s0.m_samples + ((finiteValues inputs).length : Int) + 1)
        = ((finiteValues inputs).length : Int) + 1 := by
      rw [hcount]
      have : ((finiteValues inputs).length : Int) + 1 < 2 ^ 31 := by exact_mod_cast hlen
      rw [toInt32_of_range _ (by omega) (by omega)]
      omega
    have hpos : (0 : Int) < ((finiteValues inputs).length : Int) + 1 := by omega
    simp only [HAComponent.Sensor.avg_value, hk, hpos, if_true, hsum, List.foldl_append,
      List.foldl_cons, List.foldl_nil, List.length_append, List.length_singleton,
      Nat.cast_add, Nat.cast_one]
  refine ⟨havg, fun hsig => ?_⟩
  have hclose1 : (s0.feed inputs w).1.m_sample_interval < (s0.feed inputs w).1.elapsed millis := by
    rw [hfeed]; exact hclose
  rw [update_close _ value millis _ hfin hclose1, if_pos hsig, ← havg]
  rw [hfeed]

/-- C9 on the values 10, 10, 10 fed within one window of 1000 ms, the third
closing it: the mean is 10, here also the arithmetic mean. -/
theorem C9_window_mean_witness :
    (demoSensor.feed [(ten, 100), (ten, 200)] World.quiet).1.avg_value ten = ten ∧
    exactMean [ten, ten, ten] = F32.toRat ten :=
  ⟨(C9_window_mean demoSensor [(ten, 100), (ten, 200)] ten 1001 World.quiet
    (by decide!) (by decide!) (by decide!) (by decide!) (by decide!) (by decide!)).1.trans
    (by decide!), by decide!⟩

/-- C10: for every non-finite value (NaN, +infinity, -infinity), at every clock
time, update returns the sensor unchanged (sum, sample count, window start,
last emitted value and all) and makes no call at all. -/
theorem C10_non_finite_rejected (s : HAComponent.Sensor) (value : F32) (millis : Nat)
    (w : World) (h : value.isFinite = false) :
    s.update value millis w = (s, w) ∧
    (s.update value millis w).1.m_sum = s.m_sum ∧
    (s.update value millis w).1.m_samples = s.m_samples ∧
    (s.update value millis w).1.m_last_ts = s.m_last_ts ∧
    (s.update value millis w).1.m_last_value = s.m_last_value ∧
    (s.update value millis w).2.events = w.events := by
  rw [update_not_finite s value millis w h]
  exact ⟨rfl, rfl, rfl, rfl, rfl, rfl⟩

/-- C10 on NaN and both infinities, at a clock time past the window length. -/
theorem C10_non_finite_rejected_witness :
    demoSensor.m_sample_interval < demoSensor.elapsed 5000 ∧
    demoSensor.update F32.nan 5000 World.quiet = (demoSensor, World.quiet) ∧
    demoSensor.update (F32.inf false) 5000 World.quiet = (demoSensor, World.quiet) ∧
    demoSensor.update (F32.inf true) 5000 World.quiet = (demoSensor, World.quiet) :=
  ⟨by decide!,
   (C10_non_finite_rejected demoSensor F32.nan 5000 World.quiet (by decide)).1,
   (C10_non_finite_rejected demoSensor (F32.inf false) 5000 World.quiet (by decide)).1,
   (C10_non_finite_rejected demoSensor (F32.inf true) 5000 World.quiet (by decide)).1⟩

theorem newEvents_of_append (w v : World) (xs : List Event) (h : v.events = w.events ++ xs) :
    newEvents w v = xs := by
  simp [newEvents, h]

/-- C11 (as stated, refuted): an update with NaN on a freshly constructed sensor
does not close the window, and the sample count afterwards is 0, not at least
1. -/
theorem C11_counterexample :
    (demoSensor.update F32.nan 5 World.quiet).1.m_last_ts = demoSensor.m_last_ts ∧
    (demoSensor.update F32.nan 5 World.quiet).1.m_samples = 0 ∧
    ¬ (1 ≤ (demoSensor.update F32.nan 5 World.quiet).1.m_samples) := by
  decide!

/-- C11 (amended): after every update call that closes a window, the accumulator
is empty (sum = 0 and sample count = 0) and the window start equals the current
clock time as read into `long ts`, whether or not the mean was emitted; after
an update with a finite value that does not close the window, the sample count
(non-negative and below `2^31 - 1` before) is at least 1 and the window start
is unchanged; an update with a non-finite value changes nothing. -/
theorem C11_accumulator_reset (s : HAComponent.Sensor) (value : F32) (millis : Nat)
    (w : World) :
    (value.isFinite = true → s.m_sample_interval < s.elapsed millis →
      (s.update value millis w).1.m_sum = F32.zero ∧
      (s.update value millis w).1.m_samples = 0 ∧
      (s.update value millis w).1.m_last_ts = toInt32 millis ∧
      ((millis : Int) < 2 ^ 31 → (s.update value millis w).1.m_last_ts = millis)) ∧
    (value.isFinite = true → s.elapsed millis ≤ s.m_sample_interval →
      0 ≤ s.m_samples → s.m_samples < 2 ^ 31 - 1 →
      1 ≤ (s.update value millis w).1.m_samples ∧
      (s.update value millis w).1.m_samples = s.m_samples + 1 ∧
      (s.update value millis w).1.m_last_ts = s.m_last_ts) ∧
    (value.isFinite = false → (s.update value millis w).1 = s) := by
  refine ⟨fun hfin hclose => ?_, fun hfin hopen h0 h1 => ?_, fun hnot => ?_⟩
  · rw [update_close s value millis w hfin hclose]
    have ht : (millis : Int) < 2 ^ 31 → toInt32 millis = millis :=
      fun h => toInt32_of_range _ (by omega) h
    split <;> exact ⟨rfl, rfl, rfl, ht⟩
  · rw [update_open s value millis w hfin hopen]
    have hk : toInt32 (s.m_samples + 1) = s.m_samples + 1 :=
      toInt32_of_range _ (by omega) (by omega)
    refine ⟨?_, hk, rfl⟩
    show 1 ≤ toInt32 (s.m_samples + 1)
    rw [hk]; omega
  · rw [update_not_finite s value millis w hnot]

/-- C11 on a window of 1000 ms started at 0: the update at 1001 closes it and
empties the accumulator; the update at 500 leaves one sample and the window
start at 0. -/
theorem C11_accumulator_reset_witness :
    ((demoSensor.update ten 1001 World.quiet).1.m_sum = F32.zero ∧
      (demoSensor.update ten 1001 World.quiet).1.m_samples = 0 ∧
      (demoSensor.update ten 1001 World.quiet).1.m_last_ts = toInt32 (1001 : Nat) ∧
      (((1001 : Nat) : Int) < 2 ^ 31 →
        (demoSensor.update ten 1001 World.quiet).1.m_last_ts = (1001 : Nat))) ∧
    (1 ≤ (demoSensor.update ten 500 World.quiet).1.m_samples ∧
      (demoSensor.update ten 500 World.quiet).1.m_samples = demoSensor.m_samples + 1 ∧
      (demoSensor.update ten 500 World.quiet).1.m_last_ts = demoSensor.m_last_ts) ∧
    (demoSensor.update F32.nan 500 World.quiet).1 = demoSensor :=
  ⟨(C11_accumulator_reset demoSensor ten 1001 World.quiet).1 (by decide!) (by decide!),
   (C11_accumulator_reset demoSensor ten 500 World.quiet).2.1 (by decide!) (by decide!)
     (by decide!) (by decide!),
   (C11_accumulator_reset demoSensor F32.nan 500 World.quiet).2.2 (by decide)⟩

theorem publishConfig_false_events (c : Component) (self : HACompBase)
    (g : JsonObject → World → JsonObject × World) (w : World) :
    ( HACompBase.publishConfig c self g false w).events
      = w.events ++
        [Event.print "unpublish: ",
         Event.println (HACompBase.configTopic c self),
         Event.publish (HACompBase.configTopic c self) .empty true,
         Event.publish (snprintf TOPIC_BUFFER_SIZE
            ("homeassistant/" ++ m_component c ++ "/" ++ self.context.device_name ++ "/"
              ++ self.m_id)) .empty true,
         Event.publish self.m_state_topic .empty true] := by
  simp [HACompBase.publishConfig, HACompBase.clearState, World.publish, World.emit]

/-- C12 (as stated, refuted): with an 80-byte device name, `publishConfig(false)`
publishes neither to `homeassistant/binary_sensor/d/t/config` nor to
`homeassistant/binary_sensor/d/t`. -/
theorem C12_counterexample :
    "homeassistant/" ++ "binary_sensor" ++ "/" ++ longDeviceName ++ "/" ++ "t" ++ "/config"
      ∉ (publishes (longBinarySensor.publishConfig false World.quiet).events).map Prod.fst ∧
    "homeassistant/" ++ "binary_sensor" ++ "/" ++ longDeviceName ++ "/" ++ "t"
      ∉ (publishes (longBinarySensor.publishConfig false World.quiet).events).map Prod.fst := by
  decide

/-- C12 (amended): for every entity with kind tag `k`, device name `d` and id
`i`, `publishConfig(false)` issues exactly three publishes, each with an empty
payload and the retained flag set, in this order: to the first 79 bytes of
`homeassistant/k/d/i/config`, to the first 79 bytes of the parent node
`homeassistant/k/d/i`, and to the entity's state topic; both are the whole
strings whenever `homeassistant/k/d/i/config` has at most 79 bytes.  It
publishes no configuration document and does not subscribe. -/
theorem C12_withdraw (e : Entity) (w : World) :
    publishes (newEvents w (e.publishConfig false w))
      = [(⟨("homeassistant/" ++ m_component e.component ++ "/" ++ e.base.context.device_name
              ++ "/" ++ e.base.m_id ++ "/config").data.take 79⟩, Payload.empty, true),
         (⟨("homeassistant/" ++ m_component e.component ++ "/" ++ e.base.context.device_name
              ++ "/" ++ e.base.m_id).data.take 79⟩, Payload.empty, true),
         (e.base.m_state_topic, Payload.empty, true)] ∧
    subscribes (newEvents w (e.publishConfig false w)) = [] ∧
    transportCalls (newEvents w (e.publishConfig false w))
      = [Event.publish (HACompBase.configTopic e.component e.base) .empty true,
         Event.publish (snprintf TOPIC_BUFFER_SIZE
            ("homeassistant/" ++ m_component e.component ++ "/" ++ e.base.context.device_name
              ++ "/" ++ e.base.m_id)) .empty true,
         Event.publish e.base.m_state_topic .empty true] ∧
    (("homeassistant/" ++ m_component e.component ++ "/" ++ e.base.context.device_name
        ++ "/" ++ e.base.m_id ++ "/config").length ≤ 79 →
      publishes (newEvents w (e.publishConfig false w))
        = [("homeassistant/" ++ m_component e.component ++ "/" ++ e.base.context.device_name
              ++ "/" ++ e.base.m_id ++ "/config", Payload.empty, true),
           ("homeassistant/" ++ m_component e.component ++ "/" ++ e.base.context.device_name
              ++ "/" ++ e.base.m_id, Payload.empty, true),
           (e.base.m_state_topic, Payload.empty, true)]) := by
  have hev := publishConfig_false_events e.component e.base e.getConfigInfo w
  have hnew := newEvents_of_append w (e.publishConfig false w) _ hev
  have hpub : publishes (newEvents w (e.publishConfig false w))
      = [(HACompBase.configTopic e.component e.base, Payload.empty, true),
         (snprintf TOPIC_BUFFER_SIZE
            ("homeassistant/" ++ m_component e.component ++ "/" ++ e.base.context.device_name
              ++ "/" ++ e.base.m_id), Payload.empty, true),
         (e.base.m_state_topic, Payload.empty, true)] := by
    rw [hnew]; rfl
  refine ⟨hpub, ?_, ?_, fun hlen => ?_⟩
  · rw [hnew]; rfl
  · rw [hnew]; rfl
  · rw [hpub]
    have h1 : HACompBase.configTopic e.component e.base
        = "homeassistant/" ++ m_component e.component ++ "/" ++ e.base.context.device_name
            ++ "/" ++ e.base.m_id ++ "/config" :=
      snprintf_of_length_le TOPIC_BUFFER_SIZE _ hlen
    have hlen2 : ("homeassistant/" ++ m_component e.component ++ "/"
        ++ e.base.context.device_name ++ "/" ++ e.base.m_id).length ≤ 79 := by
      rw [String.length_append] at hlen
      omega
    rw [h1, snprintf_of_length_le TOPIC_BUFFER_SIZE _ hlen2]

/-- C12 at the binary sensor `door` of device `dev`. -/
theorem C12_withdraw_witness :
    publishes (newEvents World.quiet (demoBinarySensor.publishConfig false World.quiet))
      = [("homeassistant/binary_sensor/dev/door/config", Payload.empty, true),
         ("homeassistant/binary_sensor/dev/door", Payload.empty, true),
         ("dev/binary_sensor/door/state", Payload.empty, true)] :=
  (C12_withdraw demoBinarySensor World.quiet).2.2.2 (by decide)

/-- What the override of `getConfigInfo` does to the world does not depend on
the document or the world it starts from. -/
theorem getConfigInfo_world (e : Entity) (json : JsonObject) (w : World) :
    (e.getConfigInfo json w).2
      = { w with events := w.events ++ (e.getConfigInfo [] World.quiet).2.events } ∧
    (e.getConfigInfo json w).1 = (e.getConfigInfo json World.quiet).1 := by
  cases e with
  | sensor s =>
    simp only [Entity.getConfigInfo, HAComponent.Sensor.getConfigInfo]
    cases (HAComponent.Sensor.classInfo s.m_sensor_class).1 <;> simp [World.quiet]
  | binarySensor b =>
    simp [Entity.getConfigInfo, HAComponent.BinarySensor.getConfigInfo, World.quiet]
  | switch s =>
    simp [Entity.getConfigInfo, HAComponent.Switch.getConfigInfo,
      HAComponent.Switch.reportState, World.subscribe, World.publish, World.emit, World.quiet]
  | availability a =>
    simp [Entity.getConfigInfo, HAAvailabilityComponent.getConfigInfo, World.quiet]

/-- The trace of `publishConfig(true)`: what `getConfigInfo` emits, the debug
line, the retained publish of the document, and the error line when the
transport rejected it. -/
theorem publishConfig_true_events (e : Entity) (w : World) :
    (e.publishConfig true w).events
      = w.events ++ ((e.getConfigInfo [] World.quiet).2.events
        ++ [Event.print "publish: ", Event.print (HACompBase.configTopic e.component e.base),
            Event.println "",
            Event.publish (HACompBase.configTopic e.component e.base)
              (.json (e.configDocument World.quiet)) true]
        ++ (if w.accept (w.events.length + (e.getConfigInfo [] World.quiet).2.events.length + 3)
            then [] else [Event.println "ERROR PUBLISHING TOPIC"])) := by
  have hdoc : ∀ v : World, e.base.configDocument e.getConfigInfo v
      = ((e.base.configDocument e.getConfigInfo World.quiet).1,
          { v with events := v.events ++ (e.getConfigInfo [] World.quiet).2.events }) := by
    intro v
    simp only [HACompBase.configDocument]
    rw [(getConfigInfo_world e _ v).1, (getConfigInfo_world e _ v).2]
  simp only [Entity.publishConfig, HACompBase.publishConfig, if_true, Entity.configDocument]
  rw [hdoc w]
  have hidx : w.events.length + (e.getConfigInfo [] World.quiet).2.events.length + 3
      = w.events.length + ((e.getConfigInfo [] World.quiet).2.events.length + 3) := by omega
  rw [hidx]
  cases hacc : w.accept (w.events.length + ((e.getConfigInfo [] World.quiet).2.events.length + 3)) <;>
    simp [World.publish, World.emit, hacc, List.append_assoc, Nat.add_assoc]

theorem switch_getConfigInfo_events (sw : HAComponent.Switch) :
    ((Entity.switch sw).getConfigInfo [] World.quiet).2.events
      = [Event.subscribe sw.m_cmd_topic,
         Event.publish sw.m_state_topic (.text (if sw.m_state then "ON" else "OFF")) true] := by
  cases hst : sw.m_state <;>
    simp [Entity.getConfigInfo, HAComponent.Switch.getConfigInfo,
      HAComponent.Switch.reportState, World.subscribe, World.publish, World.emit, World.quiet,
      HAComponent.Switch.ON, HAComponent.Switch.OFF, hst]

theorem transportCalls_append (xs ys : List Event) :
    transportCalls (xs ++ ys) = transportCalls xs ++ transportCalls ys := by
  induction xs with
  | nil => rfl
  | cons x xs ih => cases x <;> simp [transportCalls, ih]

theorem subscribes_append (xs ys : List Event) :
    subscribes (xs ++ ys) = subscribes xs ++ subscribes ys := by
  induction xs with
  | nil => rfl
  | cons x xs ih => cases x <;> simp [subscribes, ih]

/-- C13: for every switch, `publishConfig(true)` subscribes to the command topic
exactly once, publishes the stored state (`"ON"` if true, otherwise `"OFF"`)
retained on the state topic, and publishes, retained, a configuration document
whose `cmd_t` member is the command topic; it invokes no callback, and changes
nothing of the switch, of which no member is assigned. -/
theorem C13_switch_announce (sw : HAComponent.Switch) (w : World) :
    subscribes (newEvents w ((Entity.switch sw).publishConfig true w)) = [sw.m_cmd_topic] ∧
    publishes (newEvents w ((Entity.switch sw).publishConfig true w))
      = [(sw.m_state_topic, .text (if sw.m_state then "ON" else "OFF"), true),
         (HACompBase.configTopic .Switch sw.toHACompBase,
           .json ((Entity.switch sw).configDocument World.quiet), true)] ∧
    JsonObject.get? ((Entity.switch sw).configDocument World.quiet) "cmd_t"
      = some (.str sw.m_cmd_topic) ∧
    callbacks (newEvents w ((Entity.switch sw).publishConfig true w)) = [] := by
  have hev := publishConfig_true_events (.switch sw) w
  have hnew := newEvents_of_append w _ _ hev
  rw [hnew, switch_getConfigInfo_events]
  refine ⟨?_, ?_, ?_, ?_⟩
  · rw [subscribes_append, subscribes_append]
    split_ifs <;> rfl
  · rw [publishes_append, publishes_append]
    split_ifs <;> rfl
  · cases sw with
    | mk base st cmd cb =>
      cases base with
      | mk ctx name id icon topic =>
        cases icon <;> rfl
  · rw [callbacks_append, callbacks_append]
    split_ifs <;> rfl

theorem find?_replace_other (json : JsonObject) (key other : String) (value : JsonValue)
    (h : other ≠ key) :
    Option.map Prod.snd (List.find? (fun p => p.1 == other)
        (json.map (fun p => if p.1 == key then (key, value) else p)))
      = Option.map Prod.snd (List.find? (fun p => p.1 == other) json) := by
  induction json with
  | nil => rfl
  | cons p rest ih =>
    simp only [List.map_cons, List.find?_cons]
    cases hk : (p.1 == key)
    · simp only [Bool.false_eq_true, if_false]
      cases ho : (p.1 == other)
      · exact ih
      · rfl
    · simp only [if_true]
      have hpk : p.1 = key := by simpa using hk
      have h1 : (key == other) = false := by
        simp only [beq_eq_false_iff_ne]; exact fun h' => h h'.symm
      have h2 : (p.1 == other) = false := by rw [hpk]; exact h1
      simp only [h1, h2]
      exact ih

theorem find?_replace_same (json : JsonObject) (key : String) (value : JsonValue)
    (hany : json.any (fun p => p.1 == key) = true) :
    Option.map Prod.snd (List.find? (fun p => p.1 == key)
        (json.map (fun p => if p.1 == key then (key, value) else p))) = some value := by
  induction json with
  | nil => simp at hany
  | cons p rest ih =>
    simp only [List.map_cons, List.find?_cons]
    cases hk : (p.1 == key)
    · simp only [Bool.false_eq_true, if_false, hk]
      apply ih
      simpa [hk] using hany
    · simp only [if_true, beq_self_eq_true, Option.map_some']

theorem JsonObject.get?_set_same (json : JsonObject) (key : String) (value : JsonValue) :
    JsonObject.get? (JsonObject.set json key value) key = some value := by
  unfold JsonObject.set JsonObject.get?
  split
  · rename_i hany
    exact find?_replace_same json key value hany
  · rename_i hany
    have hnone : List.find? (fun p => p.1 == key) json = none := by
      rw [List.find?_eq_none]
      intro x hx hxk
      apply hany
      rw [List.any_eq_true]
      exact ⟨x, hx, hxk⟩
    simp [List.find?_append, hnone]

theorem JsonObject.get?_set_other (json : JsonObject) (key other : String) (value : JsonValue)
    (h : other ≠ key) :
    JsonObject.get? (JsonObject.set json key value) other = JsonObject.get? json other := by
  unfold JsonObject.set JsonObject.get?
  split
  · exact find?_replace_other json key other value h
  · have h1 : (key == other) = false := by
      simp only [beq_eq_false_iff_ne]; exact fun h' => h h'.symm
    rw [List.find?_append]
    cases List.find? (fun p => p.1 == other) json with
    | none => simp [List.find?, h1]
    | some x => rfl

/-- The overrides of `getConfigInfo` only write the members `frc_upd`,
`unit_of_meas`, `dev_cla`, `cmd_t`, `payload_on` and `payload_off`. -/
theorem getConfigInfo_get? (e : Entity) (json : JsonObject) (w : World) (key : String)
    (h1 : key ≠ "frc_upd") (h2 : key ≠ "unit_of_meas") (h3 : key ≠ "dev_cla")
    (h4 : key ≠ "cmd_t") (h5 : key ≠ "payload_on") (h6 : key ≠ "payload_off") :
    JsonObject.get? (e.getConfigInfo json w).1 key = JsonObject.get? json key := by
  cases e with
  | sensor s =>
    simp only [Entity.getConfigInfo, HAComponent.Sensor.getConfigInfo]
    cases (HAComponent.Sensor.classInfo s.m_sensor_class).1 <;>
      simp only [JsonObject.get?_set_other _ _ _ _ h1, JsonObject.get?_set_other _ _ _ _ h2,
        JsonObject.get?_set_other _ _ _ _ h3]
  | binarySensor b => rfl
  | switch s =>
    simp only [Entity.getConfigInfo, HAComponent.Switch.getConfigInfo,
      JsonObject.get?_set_other _ _ _ _ h4]
  | availability a =>
    simp only [Entity.getConfigInfo, HAAvailabilityComponent.getConfigInfo,
      JsonObject.get?_set_other _ _ _ _ h3, JsonObject.get?_set_other _ _ _ _ h5,
      JsonObject.get?_set_other _ _ _ _ h6]

theorem configDocument_eq (e : Entity) (w : World) :
    e.configDocument w
      = getDeviceInfo
          (match e.base.m_icon with
            | some icon =>
              JsonObject.set
                (JsonObject.set
                  (JsonObject.set
                    (e.getConfigInfo
                      (JsonObject.set (JsonObject.set [] "name" (.str e.base.m_name))
                        "stat_t" (.str e.base.m_state_topic)) w).1
                    "unique_id" (.str (snprintf TOPIC_BUFFER_SIZE
                      (e.base.context.device_name ++ "_" ++ e.base.m_id))))
                  "object_id" (.str (snprintf TOPIC_BUFFER_SIZE
                    (e.base.context.device_name ++ "_" ++ e.base.m_id))))
                "icon" (.str icon)
            | none =>
              JsonObject.set
                (JsonObject.set
                  (e.getConfigInfo
                    (JsonObject.set (JsonObject.set [] "name" (.str e.base.m_name))
                      "stat_t" (.str e.base.m_state_topic)) w).1
                  "unique_id" (.str (snprintf TOPIC_BUFFER_SIZE
                    (e.base.context.device_name ++ "_" ++ e.base.m_id))))
                "object_id" (.str (snprintf TOPIC_BUFFER_SIZE
                  (e.base.context.device_name ++ "_" ++ e.base.m_id))))
          e.base.context := by
  simp only [Entity.configDocument, HACompBase.configDocument]


/-- C14 (as stated, refuted): with an 80-byte device name, the `unique_id` of the
published document is not `d_t`. -/
theorem C14_counterexample :
    JsonObject.get? (longBinarySensor.configDocument World.quiet) "unique_id"
      ≠ some (.str (longDeviceName ++ "_" ++ "t")) := by
  decide

/-- C14 (amended): for every entity with device name `d`, id `i` and display name
`n`, the configuration document published by `publishConfig(true)` has
`name = n`, `stat_t` equal to the entity's state topic, `unique_id` and
`object_id` both equal to the first 79 bytes of `d_i` (to `d_i` itself whenever
it has at most 79 bytes), an `icon` member if and only if an icon was supplied
(and then equal to it), and a nested `device` object with `identifiers`, `name`,
`sw_version`, `model` and `manufacturer` taken from the device identity. -/
theorem C14_config_document (e : Entity) (w : World) :
    JsonObject.get? (e.configDocument w) "name" = some (.str e.base.m_name) ∧
    JsonObject.get? (e.configDocument w) "stat_t" = some (.str e.base.m_state_topic) ∧
    JsonObject.get? (e.configDocument w) "unique_id"
      = some (.str ⟨(e.base.context.device_name ++ "_" ++ e.base.m_id).data.take 79⟩) ∧
    JsonObject.get? (e.configDocument w) "object_id"
      = JsonObject.get? (e.configDocument w) "unique_id" ∧
    ((e.base.context.device_name ++ "_" ++ e.base.m_id).length ≤ 79 →
      JsonObject.get? (e.configDocument w) "unique_id"
        = some (.str (e.base.context.device_name ++ "_" ++ e.base.m_id))) ∧
    JsonObject.get? (e.configDocument w) "icon"
      = e.base.m_icon.map (fun icon => JsonValue.str icon) ∧
    JsonObject.get? (e.configDocument w) "device"
      = some (.object
          [("identifiers", e.base.context.mac_address),
           ("name", e.base.context.friendly_name),
           ("sw_version", e.base.context.fw_version),
           ("model", e.base.context.model),
           ("manufacturer", e.base.context.manufacturer)]) := by
  have huid : JsonObject.get? (e.configDocument w) "unique_id"
      = some (.str (snprintf TOPIC_BUFFER_SIZE
          (e.base.context.device_name ++ "_" ++ e.base.m_id))) := by
    rw [configDocument_eq]
    unfold getDeviceInfo
    cases e.base.m_icon <;>
      simp (disch := decide) only [JsonObject.get?_set_other, JsonObject.get?_set_same]
  have hoid : JsonObject.get? (e.configDocument w) "object_id"
      = some (.str (snprintf TOPIC_BUFFER_SIZE
          (e.base.context.device_name ++ "_" ++ e.base.m_id))) := by
    rw [configDocument_eq]
    unfold getDeviceInfo
    cases e.base.m_icon <;>
      simp (disch := decide) only [JsonObject.get?_set_other, JsonObject.get?_set_same]
  refine ⟨?_, ?_, huid, hoid.trans huid.symm, fun hlen => ?_, ?_, ?_⟩
  · rw [configDocument_eq]
    unfold getDeviceInfo
    cases e.base.m_icon <;>
      simp (disch := decide) only [JsonObject.get?_set_other, JsonObject.get?_set_same,
        getConfigInfo_get?]
  · rw [configDocument_eq]
    unfold getDeviceInfo
    cases e.base.m_icon <;>
      simp (disch := decide) only [JsonObject.get?_set_other, JsonObject.get?_set_same,
        getConfigInfo_get?]
  · rw [huid, snprintf_of_length_le TOPIC_BUFFER_SIZE _ hlen]
  · rw [configDocument_eq]
    unfold getDeviceInfo
    cases e.base.m_icon
    · simp (disch := decide) only [JsonObject.get?_set_other, getConfigInfo_get?, Option.map_none']
      rfl
    · simp (disch := decide) only [JsonObject.get?_set_other, JsonObject.get?_set_same,
        Option.map_some']
  · rw [configDocument_eq]
    unfold getDeviceInfo
    exact JsonObject.get?_set_same _ _ _

/-- C14 at the binary sensor `door` of device `dev`, which has an icon. -/
theorem C14_config_document_witness :
    JsonObject.get? (demoBinarySensor.configDocument World.quiet) "unique_id"
      = some (.str "dev_door") :=
  (C14_config_document demoBinarySensor World.quiet).2.2.2.2.1 (by decide)

/-- C15: with an availability entity registered, `connectClientWithAvailability`
makes one `connect` call whose last-will topic is that entity's state topic
(the value of `getWillTopic`), with last-will payload `"offline"`, retain flag
set and QoS 0; when the call succeeds it then publishes `"online"`, retained,
to that same topic, and it returns the answer of the call. -/
theorem C15_connect_with_will (avail : HAAvailabilityComponent) (id user password : String)
    (w : World) :
    avail.getWillTopic = avail.m_state_topic ∧
    (HAComponentManager.connectClientWithAvailability (some avail) id user password w).1
      = w.accept w.events.length ∧
    (w.accept w.events.length = true →
      (HAComponentManager.connectClientWithAvailability (some avail) id user password w).2.events
        = w.events ++
          [Event.connect id user password (some (avail.m_state_topic, 0, true, "offline")),
           Event.publish avail.m_state_topic (.text "online") true]) ∧
    (w.accept w.events.length = false →
      (HAComponentManager.connectClientWithAvailability (some avail) id user password w).2.events
        = w.events ++
          [Event.connect id user password (some (avail.m_state_topic, 0, true, "offline"))]) := by
  refine ⟨rfl, ?_, fun hacc => ?_, fun hacc => ?_⟩
  · simp only [HAComponentManager.connectClientWithAvailability, World.connect]
    split <;> rfl
  · simp [HAComponentManager.connectClientWithAvailability, World.connect, hacc,
      HAAvailabilityComponent.connect, HACompBase.publishState, World.publish, World.emit,
      HAAvailabilityComponent.getWillTopic, HAAvailabilityComponent.OFFLINE,
      HAAvailabilityComponent.ONLINE]
  · simp [HAComponentManager.connectClientWithAvailability, World.connect, hacc, World.emit,
      HAAvailabilityComponent.getWillTopic, HAAvailabilityComponent.OFFLINE]

/-- C15 at the availability entity of device `dev`, on a transport that accepts
the connection. -/
theorem C15_connect_with_will_witness :
    (HAComponentManager.connectClientWithAvailability (some demoAvailability)
        "client" "user" "secret" World.quiet).2.events
      = World.quiet.events ++
        [Event.connect "client" "user" "secret"
            (some (demoAvailability.m_state_topic, 0, true, "offline")),
         Event.publish demoAvailability.m_state_topic (.text "online") true] :=
  (C15_connect_with_will demoAvailability "client" "user" "secret" World.quiet).2.2.1
    (by decide)

/-- C16: `connectClientWithAvailability` makes exactly one `connect` call and
returns its answer; with no availability entity registered the call carries no
last-will arguments and nothing else happens; when the call fails nothing is
published and no second call is made. -/
theorem C16_connect_result (inst : Option HAAvailabilityComponent) (id user password : String)
    (w : World) :
    (HAComponentManager.connectClientWithAvailability inst id user password w).1
      = w.accept w.events.length ∧
    (newEvents w (HAComponentManager.connectClientWithAvailability inst id user password w).2).filter
        (fun ev => match ev with | .connect _ _ _ _ => true | _ => false)
      = [Event.connect id user password
          (inst.map (fun avail => (avail.m_state_topic, 0, true, "offline")))] ∧
    (inst = none →
      (HAComponentManager.connectClientWithAvailability inst id user password w).2.events
        = w.events ++ [Event.connect id user password none]) ∧
    (w.accept w.events.length = false →
      (HAComponentManager.connectClientWithAvailability inst id user password w).2.events
        = w.events ++ [Event.connect id user password
            (inst.map (fun avail => (avail.m_state_topic, 0, true, "offline")))] ∧
      publishes (newEvents w
        (HAComponentManager.connectClientWithAvailability inst id user password w).2) = []) := by
  cases inst with
  | none =>
    have hev : (HAComponentManager.connectClientWithAvailability none id user password w).2.events
        = w.events ++ [Event.connect id user password none] := by
      simp [HAComponentManager.connectClientWithAvailability, World.connect, World.emit]
    refine ⟨rfl, ?_, fun _ => hev, fun _ => ⟨hev, ?_⟩⟩
    · rw [newEvents_of_append w _ _ hev]; rfl
    · rw [newEvents_of_append w _ _ hev]; rfl
  | some avail =>
    cases hacc : w.accept w.events.length with
    | false =>
      have hev : (HAComponentManager.connectClientWithAvailability (some avail) id user
          password w).2.events
          = w.events ++
            [Event.connect id user password (some (avail.m_state_topic, 0, true, "offline"))] := by
        simp [HAComponentManager.connectClientWithAvailability, World.connect, hacc, World.emit,
          HAAvailabilityComponent.getWillTopic, HAAvailabilityComponent.OFFLINE]
      refine ⟨?_, ?_, (fun h => Option.noConfusion h), fun _ => ⟨hev, ?_⟩⟩
      · simp [HAComponentManager.connectClientWithAvailability, World.connect, hacc]
      · rw [newEvents_of_append w _ _ hev]; rfl
      · rw [newEvents_of_append w _ _ hev]; rfl
    | true =>
      have hev : (HAComponentManager.connectClientWithAvailability (some avail) id user
          password w).2.events
          = w.events ++
            [Event.connect id user password (some (avail.m_state_topic, 0, true, "offline")),
             Event.publish avail.m_state_topic (.text "online") true] := by
        simp [HAComponentManager.connectClientWithAvailability, World.connect, hacc,
          HAAvailabilityComponent.connect, HACompBase.publishState, World.publish, World.emit,
          HAAvailabilityComponent.getWillTopic, HAAvailabilityComponent.OFFLINE,
          HAAvailabilityComponent.ONLINE]
      refine ⟨?_, ?_, (fun h => Option.noConfusion h), (fun h => Bool.noConfusion h)⟩
      · simp [HAComponentManager.connectClientWithAvailability, World.connect, hacc]
      · rw [newEvents_of_append w _ _ hev]; rfl

/-- C16 on a transport that rejects the connection, with and without an
availability entity. -/
theorem C16_connect_result_witness :
    ((HAComponentManager.connectClientWithAvailability none "client" "user" "secret"
        World.quiet).2.events
      = World.quiet.events ++ [Event.connect "client" "user" "secret" none]) ∧
    ((HAComponentManager.connectClientWithAvailability (some demoAvailability)
        "client" "user" "secret" World.deaf).2.events
      = World.deaf.events ++ [Event.connect "client" "user" "secret"
          ((some demoAvailability).map (fun avail => (avail.m_state_topic, 0, true, "offline")))] ∧
      publishes (newEvents World.deaf
        (HAComponentManager.connectClientWithAvailability (some demoAvailability)
          "client" "user" "secret" World.deaf).2) = []) :=
  ⟨(C16_connect_result none "client" "user" "secret" World.quiet).2.2.1 rfl,
   (C16_connect_result (some demoAvailability) "client" "user" "secret" World.deaf).2.2.2
     (by decide)⟩

/-- The transport calls of one `publishConfig(present)` are the same whatever
the trace so far and whatever the transport answers. -/
theorem publishConfig_calls (e : Entity) (present : Bool) (w : World) :
    ∃ xs, (e.publishConfig present w).events = w.events ++ xs ∧
      transportCalls xs
        = transportCalls (newEvents World.quiet (e.publishConfig present World.quiet)) := by
  cases present with
  | false =>
    have h1 := publishConfig_false_events e.component e.base e.getConfigInfo w
    have h2 := publishConfig_false_events e.component e.base e.getConfigInfo World.quiet
    refine ⟨_, h1, ?_⟩
    rw [newEvents_of_append World.quiet (e.publishConfig false World.quiet) _ h2]
  | true =>
    have h1 := publishConfig_true_events e w
    have h2 := publishConfig_true_events e World.quiet
    refine ⟨_, h1, ?_⟩
    rw [newEvents_of_append World.quiet (e.publishConfig true World.quiet) _ h2]
    simp only [transportCalls_append]
    congr 1
    split_ifs <;> rfl

/-- The transport calls of a broadcast are those of each entity's
`publishConfig(present)` on an accepting transport, once each, in registration
order. -/
theorem publishConfigAll_calls (m_components : List Entity) (present : Bool) (w : World) :
    ∃ xs, (HAComponentManager.publishConfigAll m_components present w).events = w.events ++ xs ∧
      transportCalls xs
        = (m_components.map (fun e =>
            transportCalls (newEvents World.quiet (e.publishConfig present World.quiet)))).flatten := by
  induction m_components generalizing w with
  | nil => exact ⟨[], by simp [HAComponentManager.publishConfigAll], rfl⟩
  | cons e rest ih =>
    obtain ⟨xs1, h1, c1⟩ := publishConfig_calls e present w
    obtain ⟨xs2, h2, c2⟩ := ih (e.publishConfig present w)
    refine ⟨xs1 ++ xs2, ?_, ?_⟩
    · have hfold : HAComponentManager.publishConfigAll (e :: rest) present w
          = HAComponentManager.publishConfigAll rest present (e.publishConfig present w) := rfl
      rw [hfold, h2, h1, List.append_assoc]
    · rw [transportCalls_append, c1, c2]
      simp

/-- C17: for every registry, the publish and subscribe calls (topics, payloads,
retain flags) made by `publishConfigAll(true)` right after
`publishConfigAll(false)` are, in order, those made by `publishConfigAll(true)`
alone; neither broadcast assigns a member of any entity, so the entities are
the same after both runs. -/
theorem C17_withdraw_then_announce (m_components : List Entity) (w : World) :
    transportCalls
        (newEvents (HAComponentManager.publishConfigAll m_components false w)
          (HAComponentManager.publishConfigAll m_components true
            (HAComponentManager.publishConfigAll m_components false w)))
      = transportCalls (newEvents w (HAComponentManager.publishConfigAll m_components true w)) := by
  obtain ⟨xs, h, c⟩ := publishConfigAll_calls m_components true
    (HAComponentManager.publishConfigAll m_components false w)
  obtain ⟨ys, h', c'⟩ := publishConfigAll_calls m_components true w
  rw [newEvents_of_append _ _ _ h, newEvents_of_append _ _ _ h', c, c']

/-- C18: for every registry and every pattern of answers of the transport, the
publish and subscribe calls of `publishConfigAll(present)` are those of
`publishConfig(present)` of each registered entity, once each and in
registration order, and they are the same as on a transport that accepts
every publish: a rejected publish is neither retried nor stops the
broadcast. -/
theorem C18_broadcast_ignores_rejection (m_components : List Entity) (present : Bool)
    (w : World) :
    HAComponentManager.publishConfigAll m_components present w
      = m_components.foldl (fun v item => item.publishConfig present v) w ∧
    transportCalls (newEvents w (HAComponentManager.publishConfigAll m_components present w))
      = (m_components.map (fun e =>
          transportCalls (newEvents World.quiet (e.publishConfig present World.quiet)))).flatten ∧
    transportCalls (newEvents w (HAComponentManager.publishConfigAll m_components present w))
      = transportCalls (newEvents { w with accept := fun _ => true }
          (HAComponentManager.publishConfigAll m_components present
            { w with accept := fun _ => true })) := by
  obtain ⟨xs, h, c⟩ := publishConfigAll_calls m_components present w
  obtain ⟨ys, h', c'⟩ := publishConfigAll_calls m_components present
    { w with accept := fun _ => true }
  refine ⟨rfl, ?_, ?_⟩
  · rw [newEvents_of_append _ _ _ h, c]
  · rw [newEvents_of_append _ _ _ h, newEvents_of_append _ _ _ h', c, c']

theorem Entity.initialize_idempotent (e : Entity) :
    ( Entity.initialize ( Entity.initialize e)) = ( Entity.initialize e) := by
  cases e <;> rfl

theorem Entity.initialize_withoutTopics (e : Entity) :
    ( Entity.initialize e).withoutTopics = e.withoutTopics := by
  cases e <;> rfl

/-- C19: `initializeAll` runs `initialize` on each registered entity once, in
registration order, and is idempotent: the registry after two calls equals the
registry after one, in particular the topics (state topic, and command topic
of a switch) are the same; `initialize` changes no member of an entity other
than its topics, and, having no access to the transport, publishes nothing. -/
theorem C19_initializeAll_idempotent (m_components : List Entity) :
    HAComponentManager.initializeAll m_components = m_components.map Entity.initialize ∧
    (HAComponentManager.initializeAll m_components).length = m_components.length ∧
    HAComponentManager.initializeAll (HAComponentManager.initializeAll m_components)
      = HAComponentManager.initializeAll m_components ∧
    (HAComponentManager.initializeAll (HAComponentManager.initializeAll m_components)).map
        Entity.topics
      = (HAComponentManager.initializeAll m_components).map Entity.topics ∧
    (HAComponentManager.initializeAll m_components).map Entity.withoutTopics
      = m_components.map Entity.withoutTopics := by
  have hidem : HAComponentManager.initializeAll (HAComponentManager.initializeAll m_components)
      = HAComponentManager.initializeAll m_components := by
    simp only [HAComponentManager.initializeAll, List.map_map]
    apply List.map_congr_left
    intro e _
    exact Entity.initialize_idempotent e
  refine ⟨rfl, by simp [HAComponentManager.initializeAll], hidem, by rw [hidem], ?_⟩
  simp only [HAComponentManager.initializeAll, List.map_map]
  apply List.map_congr_left
  intro e _
  exact Entity.initialize_withoutTopics e

theorem update_step (s : HAComponent.Sensor) (value : F32) (millis : Nat) (w : World) :
    ((s.update value millis w).2.events = w.events ∧
      (s.update value millis w).1.m_last_value = s.m_last_value) ∨
    (s.update value millis w).2.events
      = w.events ++ [Event.publish s.m_state_topic
          (.decimal (s.update value millis w).1.m_last_value) true] := by
  cases hfin : value.isFinite with
  | false =>
    rw [update_not_finite s value millis w hfin]
    exact Or.inl ⟨rfl, rfl⟩
  | true =>
    by_cases hclose : s.m_sample_interval < s.elapsed millis
    · rw [update_close s value millis w hfin hclose]
      split
      · exact Or.inr rfl
      · exact Or.inl ⟨rfl, rfl⟩
    · rw [update_open s value millis w hfin (not_lt.mp hclose)]
      exact Or.inl ⟨rfl, rfl⟩

theorem update_state_topic (s : HAComponent.Sensor) (value : F32) (millis : Nat) (w : World) :
    (s.update value millis w).1.m_state_topic = s.m_state_topic := by
  cases hfin : value.isFinite with
  | false => rw [update_not_finite s value millis w hfin]
  | true =>
    by_cases hclose : s.m_sample_interval < s.elapsed millis
    · rw [update_close s value millis w hfin hclose]
      split <;> rfl
    · rw [update_open s value millis w hfin (not_lt.mp hclose)]

/-- Over a run of updates, the last emitted value is the payload of the last
state published by the run, and is unchanged when the run published nothing. -/
theorem feed_last_emitted (inputs : List (F32 × Nat)) (s : HAComponent.Sensor) (w : World) :
    ∃ xs, (s.feed inputs w).2.events = w.events ++ xs ∧
      (publishes xs = [] → (s.feed inputs w).1.m_last_value = s.m_last_value) ∧
      (∀ q, (publishes xs).getLast? = some q →
        q = (s.m_state_topic, .decimal (s.feed inputs w).1.m_last_value, true)) := by
  induction inputs generalizing s w with
  | nil =>
    refine ⟨[], by simp [HAComponent.Sensor.feed], fun _ => rfl, ?_⟩
    intro q hq
    simp [publishes] at hq
  | cons p rest ih =>
    obtain ⟨value, millis⟩ := p
    obtain ⟨xs2, h2, hnone2, hlast2⟩ := ih (s.update value millis w).1 (s.update value millis w).2
    have hfeed : s.feed ((value, millis) :: rest) w
        = (s.update value millis w).1.feed rest (s.update value millis w).2 := rfl
    rw [hfeed]
    rw [update_state_topic] at hlast2
    rcases update_step s value millis w with ⟨hev, hval⟩ | hev
    · refine ⟨xs2, by rw [h2, hev], ?_, hlast2⟩
      intro hx
      rw [hnone2 hx, hval]
    · refine ⟨[Event.publish s.m_state_topic
          (.decimal (s.update value millis w).1.m_last_value) true] ++ xs2,
        by rw [h2, hev, List.append_assoc], ?_, ?_⟩
      · intro hx
        rw [publishes_append] at hx
        simp [publishes] at hx
      · intro q hq
        rw [publishes_append] at hq
        cases hx : publishes xs2 with
        | nil =>
          rw [hx] at hq
          simp [publishes] at hq
          rw [← hq, hnone2 hx]
        | cons a l =>
          apply hlast2
          rw [hx] at hq ⊢
          rw [List.getLast?_append_of_ne_nil _ (List.cons_ne_nil a l)] at hq
          exact hq

/-- C20: `getCurrent` reads the last emitted value: after any run of updates it
returns the mean carried by the last state the run published, and the value it
returned before the run when the run published nothing.  It is a read of one
member, so the sensor (sum, sample count, window start, last emitted value)
and the trace are untouched by it. -/
theorem C20_getCurrent (s : HAComponent.Sensor) (inputs : List (F32 × Nat)) (w : World) :
    s.getCurrent = s.m_last_value ∧
    ((publishes (newEvents w (s.feed inputs w).2)) = [] →
      (s.feed inputs w).1.getCurrent = s.getCurrent) ∧
    (∀ q, (publishes (newEvents w (s.feed inputs w).2)).getLast? = some q →
      q = (s.m_state_topic, .decimal (s.feed inputs w).1.getCurrent, true)) := by
  obtain ⟨xs, h, hnone, hlast⟩ := feed_last_emitted inputs s w
  rw [newEvents_of_append _ _ _ h]
  exact ⟨rfl, hnone, hlast⟩

/-- C20 at hysteresis `0.5` and last emitted value `10`: after the means `10.3`
(suppressed) and `10.6` (emitted), the last published state carries what
`getCurrent` returns. -/
theorem C20_getCurrent_witness :
    ((hystSensor.feed [(F32.ofRatio 103 10, 2000)] World.quiet).1.getCurrent
      = hystSensor.getCurrent) ∧
    (("dev/sensor/temp/state", Payload.decimal (F32.ofRatio 106 10), true)
      = (hystSensor.m_state_topic,
          Payload.decimal (hystSensor.feed
            [(F32.ofRatio 103 10, 2000), (F32.ofRatio 106 10, 4000)] World.quiet).1.getCurrent,
          true)) :=
  ⟨(C20_getCurrent hystSensor [(F32.ofRatio 103 10, 2000)] World.quiet).2.1 (by decide!),
   (C20_getCurrent hystSensor [(F32.ofRatio 103 10, 2000), (F32.ofRatio 106 10, 4000)]
      World.quiet).2.2 _ (by decide!)⟩

theorem snprintf_fitsBuffer (full : String) :
    fitsBuffer (snprintf TOPIC_BUFFER_SIZE full) full := by
  refine ⟨?_, ?_, fun h => snprintf_of_length_le TOPIC_BUFFER_SIZE full h⟩
  · show (full.data.take (TOPIC_BUFFER_SIZE - 1)).length ≤ TOPIC_BUFFER_SIZE - 1
    rw [List.length_take]
    exact Nat.min_le_left _ _
  · exact List.take_prefix _ _

theorem initialize_state_topic_length (e : Entity) :
    ( Entity.initialize e).base.m_state_topic.length ≤ 79 := by
  cases e with
  | sensor s => exact (snprintf_fitsBuffer _).1
  | binarySensor b => exact (snprintf_fitsBuffer _).1
  | switch s => exact (snprintf_fitsBuffer _).1
  | availability a => exact (snprintf_fitsBuffer _).1

theorem mem_publishes_append (q : String × Payload × Bool) (xs ys : List Event) :
    q ∈ publishes (xs ++ ys) ↔ q ∈ publishes xs ∨ q ∈ publishes ys := by
  rw [publishes_append, List.mem_append]

/-- The topics `publishConfig` publishes to: the entity's state topic, the
discovery topic, and the parent node of the discovery topic. -/
theorem publishConfig_topics (e : Entity) (present : Bool) (w : World)
    (q : String × Payload × Bool)
    (hq : q ∈ publishes (newEvents w (e.publishConfig present w))) :
    q.1 = e.base.m_state_topic ∨
    q.1 = HACompBase.configTopic e.component e.base ∨
    q.1 = snprintf TOPIC_BUFFER_SIZE
      ("homeassistant/" ++ m_component e.component ++ "/" ++ e.base.context.device_name ++ "/"
        ++ e.base.m_id) := by
  cases present with
  | false =>
    have hev := publishConfig_false_events e.component e.base e.getConfigInfo w
    rw [newEvents_of_append w (e.publishConfig false w) _ hev] at hq
    simp only [publishes, List.mem_cons, List.mem_nil_iff, or_false] at hq
    rcases hq with h | h | h
    · exact Or.inr (Or.inl (by rw [h]))
    · exact Or.inr (Or.inr (by rw [h]))
    · exact Or.inl (by rw [h])
  | true =>
    have hev := publishConfig_true_events e w
    rw [newEvents_of_append w (e.publishConfig true w) _ hev] at hq
    rw [mem_publishes_append, mem_publishes_append] at hq
    rcases hq with (h | h) | h
    · cases e with
      | sensor s =>
        exfalso
        have hnil : ((Entity.sensor s).getConfigInfo [] World.quiet).2.events = [] := by
          simp only [Entity.getConfigInfo, HAComponent.Sensor.getConfigInfo]
          cases (HAComponent.Sensor.classInfo s.m_sensor_class).1 <;> rfl
        rw [hnil] at h
        simp [publishes] at h
      | binarySensor b =>
        exfalso
        have hnil : ((Entity.binarySensor b).getConfigInfo [] World.quiet).2.events = [] := rfl
        rw [hnil] at h
        simp [publishes] at h
      | switch sw =>
        rw [switch_getConfigInfo_events] at h
        simp only [publishes, List.mem_cons, List.mem_nil_iff, or_false] at h
        exact Or.inl (by rw [h]; rfl)
      | availability a =>
        exfalso
        have hnil : ((Entity.availability a).getConfigInfo [] World.quiet).2.events = [] := rfl
        rw [hnil] at h
        simp [publishes] at h
    · simp only [publishes, List.mem_cons, List.mem_nil_iff, or_false] at h
      exact Or.inr (Or.inl (by rw [h]))
    · exfalso
      split_ifs at h <;> simp [publishes] at h

/-- C21: for every device name and entity id of any length, every topic computed
by initialize (the generic state topic, the state and command topics of a
switch, the state topic of the availability entity) fits the 80-byte buffer as
the rendering of its format: at most 79 bytes, a prefix of the full formatted
string, and equal to it whenever that has at most 79 bytes; the same holds for
the discovery topic and its parent node formatted by `publishConfig`, and every
topic `publishConfig` passes to publish on an initialized entity is one of
these or the state topic, so has at most 79 bytes. -/
theorem C21_topics_fit_buffer :
    (∀ (c : Component) (self : HACompBase),
      fitsBuffer ( HACompBase.initialize c self).m_state_topic
        (self.context.device_name ++ "/" ++ m_component c ++ "/" ++ self.m_id ++ "/state")) ∧
    (∀ sw : HAComponent.Switch,
      fitsBuffer ( HAComponent.Switch.initialize sw).m_state_topic
        (sw.context.device_name ++ "/" ++ "switch" ++ "/" ++ sw.m_id ++ "/state") ∧
      fitsBuffer ( HAComponent.Switch.initialize sw).m_cmd_topic
        (sw.context.device_name ++ "/" ++ "switch" ++ "/" ++ sw.m_id ++ "/ctrl")) ∧
    (∀ a : HAAvailabilityComponent,
      fitsBuffer ( HAAvailabilityComponent.initialize a).m_state_topic
        (a.context.device_name ++ "/" ++ a.m_id)) ∧
    (∀ (c : Component) (self : HACompBase),
      fitsBuffer (HACompBase.configTopic c self)
        ("homeassistant/" ++ m_component c ++ "/" ++ self.context.device_name ++ "/"
          ++ self.m_id ++ "/config") ∧
      fitsBuffer (snprintf TOPIC_BUFFER_SIZE
          ("homeassistant/" ++ m_component c ++ "/" ++ self.context.device_name ++ "/"
            ++ self.m_id))
        ("homeassistant/" ++ m_component c ++ "/" ++ self.context.device_name ++ "/"
          ++ self.m_id)) ∧
    (∀ (e : Entity) (present : Bool) (w : World) (q : String × Payload × Bool),
      q ∈ publishes (newEvents w (( Entity.initialize e).publishConfig present w)) →
      q.1.length ≤ 79 ∧
      (q.1 = ( Entity.initialize e).base.m_state_topic ∨
        q.1 = HACompBase.configTopic ( Entity.initialize e).component ( Entity.initialize e).base ∨
        q.1 = snprintf TOPIC_BUFFER_SIZE
          ("homeassistant/" ++ m_component ( Entity.initialize e).component ++ "/"
            ++ ( Entity.initialize e).base.context.device_name ++ "/"
            ++ ( Entity.initialize e).base.m_id))) := by
  refine ⟨fun c self => snprintf_fitsBuffer _, fun sw => ⟨snprintf_fitsBuffer _,
    snprintf_fitsBuffer _⟩, fun a => snprintf_fitsBuffer _,
    fun c self => ⟨snprintf_fitsBuffer _, snprintf_fitsBuffer _⟩, ?_⟩
  intro e present w q hq
  have h := publishConfig_topics ( Entity.initialize e) present w q hq
  refine ⟨?_, h⟩
  rcases h with h | h | h
  · rw [h]; exact initialize_state_topic_length e
  · rw [h]; exact (snprintf_fitsBuffer _).1
  · rw [h]; exact (snprintf_fitsBuffer _).1

/-- C21 at the switch `t` of the device with the 80-byte name: the state publish
of `publishConfig(true)` goes to a topic of 79 bytes. -/
theorem C21_topics_fit_buffer_witness :
    (( HAComponent.Switch.initialize longSwitch).m_state_topic, Payload.text "OFF", true).1.length
      ≤ 79 :=
  (C21_topics_fit_buffer.2.2.2.2 (.switch longSwitch) true World.quiet
    (( HAComponent.Switch.initialize longSwitch).m_state_topic, Payload.text "OFF", true)
    (by decide)).1

theorem snprintf_length (full : String) :
    (snprintf TOPIC_BUFFER_SIZE full).length = min 79 full.length := by
  show (full.data.take (TOPIC_BUFFER_SIZE - 1)).length = min 79 full.data.length
  rw [List.length_take]
  rfl

theorem snprintf_ne_empty (full : String) (h : 0 < full.length) :
    snprintf TOPIC_BUFFER_SIZE full ≠ "" := by
  intro heq
  have hlen := snprintf_length full
  rw [heq] at hlen
  have h0 : ("" : String).length = 0 := rfl
  rw [h0] at hlen
  omega

theorem initialize_state_topic_ne_empty (e : Entity) :
    ( Entity.initialize e).base.m_state_topic ≠ "" := by
  cases e with
  | sensor s =>
    apply snprintf_ne_empty
    simp only [String.length_append]
    have : ("/state" : String).length = 6 := rfl
    omega
  | binarySensor b =>
    apply snprintf_ne_empty
    simp only [String.length_append]
    have : ("/state" : String).length = 6 := rfl
    omega
  | switch sw =>
    apply snprintf_ne_empty
    simp only [String.length_append]
    have : ("/state" : String).length = 6 := rfl
    omega
  | availability a =>
    apply snprintf_ne_empty
    simp only [String.length_append]
    have : ("/" : String).length = 1 := rfl
    omega

/-- C22 (as stated, refuted): on a switch that is constructed but not
initialized, whose state topic is empty, `setState(true)` publishes `"ON"` to
the empty topic; so do `reportState`, `publishConfig(false)` and
`publishConfig(true)`, and an emitting `update` of a sensor. -/
theorem C22_counterexample :
    (HAComponent.Switch.new demoContext "relay" "Relay" 7 none).m_state_topic = "" ∧
    publishes ((HAComponent.Switch.new demoContext "relay" "Relay" 7
        none).setState true World.quiet).2.events
      = [("", .text "ON", true)] ∧
    ("", Payload.text "OFF", true) ∈ publishes ((HAComponent.Switch.new demoContext "relay"
        "Relay" 7 none).reportState World.quiet).events ∧
    ("", Payload.empty, true) ∈ publishes ((Entity.switch (HAComponent.Switch.new demoContext
        "relay" "Relay" 7 none)).publishConfig false World.quiet).events ∧
    ("", Payload.text "OFF", true) ∈ publishes ((Entity.switch (HAComponent.Switch.new
        demoContext "relay" "Relay" 7 none)).publishConfig true World.quiet).events ∧
    publishes ((HAComponent.Sensor.new demoContext "temp" "Temperature" 1000 F32.zero
        .Temperature none F32.zero).update ten 1001 World.quiet).2.events
      = [("", .decimal ten, true)] := by
  decide!

/-- C22 (amended): an entity's state topic is empty after construction and
non-empty after initialize; publishing is not guarded by initialization: the
state publishes of `setState`, `reportState`, `clearState` (run by
`publishConfig(false)`) and of an emitting `update` go to whatever the state
topic holds at that moment, hence to a non-empty topic once the entity has
been initialized. -/
theorem C22_state_topic_lifecycle :
    (∀ (context : ComponentContext) (id name : String) (icon : Option String),
      (HACompBase.new context id name icon).m_state_topic = "") ∧
    (∀ (context : ComponentContext) (id name : String) (callback : Nat) (icon : Option String),
      (HAComponent.Switch.new context id name callback icon).m_state_topic = "") ∧
    (∀ (context : ComponentContext) (id name : String) (interval : Int) (hysteresis : F32)
        (sclass : SensorClass) (icon : Option String) (last_value : F32),
      (HAComponent.Sensor.new context id name interval hysteresis sclass icon
        last_value).m_state_topic = "") ∧
    (∀ (context : ComponentContext) (id name : String) (sclass : BinarySensorClass)
        (icon : Option String),
      (HAComponent.BinarySensor.new context id name sclass icon).m_state_topic = "") ∧
    (∀ (context : ComponentContext) (icon : Option String),
      (HAAvailabilityComponent.new context icon).m_state_topic = "") ∧
    (∀ e : Entity, ( Entity.initialize e).base.m_state_topic ≠ "") ∧
    (∀ (sw : HAComponent.Switch) (b : Bool) (w : World),
      publishes (newEvents w (sw.setState b w).2)
        = [(sw.m_state_topic, .text (if b then "ON" else "OFF"), true)]) ∧
    (∀ (sw : HAComponent.Switch) (w : World),
      publishes (newEvents w (sw.reportState w))
        = [(sw.m_state_topic, .text (if sw.m_state then "ON" else "OFF"), true)]) ∧
    (∀ (self : HACompBase) (w : World),
      publishes (newEvents w (self.clearState w)) = [(self.m_state_topic, .empty, true)]) ∧
    (∀ (s : HAComponent.Sensor) (value : F32) (millis : Nat) (w : World),
      publishes (newEvents w (s.update value millis w).2) = [] ∨
      publishes (newEvents w (s.update value millis w).2)
        = [(s.m_state_topic, .decimal (s.update value millis w).1.m_last_value, true)]) := by
  refine ⟨fun _ _ _ _ => rfl, fun _ _ _ _ _ => rfl, fun _ _ _ _ _ _ _ _ => rfl,
    fun _ _ _ _ _ => rfl, fun _ _ => rfl, initialize_state_topic_ne_empty, ?_, ?_, ?_, ?_⟩
  · intro sw b w
    have hev : (sw.setState b w).2.events = w.events ++
        [Event.callback sw.m_callback b,
         Event.publish sw.m_state_topic (.text (if b then "ON" else "OFF")) true] := by
      cases b <;>
        simp [HAComponent.Switch.setState, HAComponent.Switch.reportState, World.publish,
          World.emit, HAComponent.Switch.ON, HAComponent.Switch.OFF]
    rw [newEvents_of_append w _ _ hev]
    rfl
  · intro sw w
    have hev : (sw.reportState w).events = w.events ++
        [Event.publish sw.m_state_topic (.text (if sw.m_state then "ON" else "OFF")) true] := by
      cases hst : sw.m_state <;>
        simp [HAComponent.Switch.reportState, World.publish, World.emit,
          HAComponent.Switch.ON, HAComponent.Switch.OFF, hst]
    rw [newEvents_of_append w _ _ hev]
    rfl
  · intro self w
    have hev : (self.clearState w).events
        = w.events ++ [Event.publish self.m_state_topic .empty true] := by
      simp [HACompBase.clearState, World.publish, World.emit]
    rw [newEvents_of_append w _ _ hev]
    rfl
  · intro s value millis w
    rcases update_step s value millis w with ⟨hev, _⟩ | hev
    · left
      rw [newEvents_of_append w _ [] (by rw [hev, List.append_nil])]
      rfl
    · right
      rw [newEvents_of_append w _ _ hev]
      rfl

/-- C23 (as stated, refuted): with an 80-byte device name, the state topic of the
initialized availability entity is not `d/status`. -/
theorem C23_counterexample :
    ( HAAvailabilityComponent.initialize
        (HAAvailabilityComponent.new longContext none)).getWillTopic
      ≠ longDeviceName ++ "/status" := by
  decide

/-- C23 (amended): for every device name `d`, after initialize the availability
entity's state topic, which is the last-will topic returned by `getWillTopic`,
is the first 79 bytes of `d/status` (`d/status` itself whenever that has at
most 79 bytes), never the generic `d/binary_sensor/status/state`, while the
discovery topic its configuration is published to is the first 79 bytes of
`homeassistant/binary_sensor/d/status/config` (the whole string whenever it
has at most 79 bytes). -/
theorem C23_availability_topics (context : ComponentContext) (icon : Option String)
    (w : World) :
    ( HAAvailabilityComponent.initialize (HAAvailabilityComponent.new context icon)).getWillTopic
      = ( HAAvailabilityComponent.initialize
          (HAAvailabilityComponent.new context icon)).m_state_topic ∧
    fitsBuffer
      ( HAAvailabilityComponent.initialize (HAAvailabilityComponent.new context icon)).m_state_topic
      (context.device_name ++ "/status") ∧
    ( HAAvailabilityComponent.initialize (HAAvailabilityComponent.new context icon)).m_state_topic
      ≠ context.device_name ++ "/binary_sensor/status/state" ∧
    fitsBuffer
      (HACompBase.configTopic .BinarySensor
        ( HAAvailabilityComponent.initialize
          (HAAvailabilityComponent.new context icon)).toHACompBase)
      ("homeassistant/binary_sensor/" ++ context.device_name ++ "/status/config") ∧
    (HACompBase.configTopic .BinarySensor
        ( HAAvailabilityComponent.initialize
          (HAAvailabilityComponent.new context icon)).toHACompBase,
      Payload.json ((Entity.availability ( HAAvailabilityComponent.initialize
          (HAAvailabilityComponent.new context icon))).configDocument World.quiet), true)
      ∈ publishes (newEvents w ((Entity.availability ( HAAvailabilityComponent.initialize
          (HAAvailabilityComponent.new context icon))).publishConfig true w)) := by
  have hst : ( HAAvailabilityComponent.initialize
      (HAAvailabilityComponent.new context icon)).m_state_topic
      = snprintf TOPIC_BUFFER_SIZE (context.device_name ++ "/status") := by
    have e1 : context.device_name ++ "/status" = context.device_name ++ "/" ++ "status" := by
      apply String.ext
      simp [String.data_append]
    rw [e1]; rfl
  have hcfg : HACompBase.configTopic .BinarySensor
      ( HAAvailabilityComponent.initialize
        (HAAvailabilityComponent.new context icon)).toHACompBase
      = snprintf TOPIC_BUFFER_SIZE
          ("homeassistant/binary_sensor/" ++ context.device_name ++ "/status/config") := by
    have e2 : "homeassistant/binary_sensor/" ++ context.device_name ++ "/status/config"
        = "homeassistant/" ++ m_component .BinarySensor ++ "/" ++ context.device_name ++ "/"
            ++ "status" ++ "/config" := by
      apply String.ext
      simp [String.data_append, m_component]
    rw [e2]; rfl
  refine ⟨rfl, ?_, ?_, ?_, ?_⟩
  · rw [hst]; exact snprintf_fitsBuffer _
  · rw [hst]
    intro heq
    have hlen := snprintf_length (context.device_name ++ "/status")
    rw [heq] at hlen
    simp only [String.length_append] at hlen
    have h1 : ("/binary_sensor/status/state" : String).length = 27 := rfl
    have h2 : ("/status" : String).length = 7 := rfl
    omega
  · rw [hcfg]; exact snprintf_fitsBuffer _
  · have hev := publishConfig_true_events (.availability ( HAAvailabilityComponent.initialize
      (HAAvailabilityComponent.new context icon))) w
    rw [newEvents_of_append w _ _ hev, mem_publishes_append, mem_publishes_append]
    left; right
    simp [publishes, Entity.component, Entity.base]

/-- C23 at device `dev`: the availability entity's state topic is `dev/status`
and its discovery topic `homeassistant/binary_sensor/dev/status/config`. -/
theorem C23_availability_topics_witness :
    ( HAAvailabilityComponent.initialize
        (HAAvailabilityComponent.new demoContext none)).m_state_topic = "dev/status" ∧
    HACompBase.configTopic .BinarySensor
        ( HAAvailabilityComponent.initialize
          (HAAvailabilityComponent.new demoContext none)).toHACompBase
      = "homeassistant/binary_sensor/dev/status/config" :=
  ⟨(C23_availability_topics demoContext none World.quiet).2.1.2.2 (by decide),
   (C23_availability_topics demoContext none World.quiet).2.2.2.1.2.2 (by decide)⟩

end HA
